import Mathlib

/- Shallow embedding of the Cardinal3D graphics core (C++) and proofs about it.
   Floating-point arithmetic is modelled exactly over the rationals; the C++
   library calls `std::sqrt` / `Vec3::unit()` are modelled by an explicit square
   root oracle parameter `sq : Q -> Q`, constrained pointwise in theorem
   hypotheses where its value matters.  Sources embedded:
   src/student/tri_mesh.cpp, src/student/bsdf.cpp, src/student/shapes.cpp,
   src/student/bbox.cpp, src/student/bvh.inl, src/student/meshedit.cpp and the
   camera ray generator. -/

namespace Cardinal3D

/-- Three-component vector with exact rational components, modelling the
library type `Vec3` (three `float`s). -/
structure Vec3 where
  x : ℚ
  y : ℚ
  z : ℚ
deriving DecidableEq

/-- Componentwise vector addition (library `Vec3::operator+`). -/
def vadd (a b : Vec3) : Vec3 := ⟨a.x + b.x, a.y + b.y, a.z + b.z⟩

/-- Componentwise vector subtraction (library `Vec3::operator-`). -/
def vsub (a b : Vec3) : Vec3 := ⟨a.x - b.x, a.y - b.y, a.z - b.z⟩

/-- Scalar multiple of a vector (library `operator*(float, Vec3)`). -/
def smul (c : ℚ) (v : Vec3) : Vec3 := ⟨c * v.x, c * v.y, c * v.z⟩

/-- Dot product (library `dot(Vec3, Vec3)`). -/
def dot (a b : Vec3) : ℚ := a.x * b.x + a.y * b.y + a.z * b.z

/-- Cross product (library `cross(Vec3, Vec3)`). -/
def cross (a b : Vec3) : Vec3 :=
  ⟨a.y * b.z - a.z * b.y, a.z * b.x - a.x * b.z, a.x * b.y - a.y * b.x⟩

/-- Normalisation `Vec3::unit()` (vector divided by its norm), with the square
root of the squared norm supplied by the oracle `sq`. -/
def unitV (sq : ℚ → ℚ) (v : Vec3) : Vec3 := smul (1 / sq (dot v v)) v

/-- The `float` literal `1e-6` used by `Triangle::hit` as parallelism
threshold, modelled as the exact rational it denotes in the source text. -/
def epsQ : ℚ := 1 / 1000000

/-- A ray: origin `point`, direction `dir`, and the mutable distance interval
`dist_bounds = [lo, hi]` (fields `dist_bounds.x` / `dist_bounds.y` in C++). -/
structure Ray where
  point : Vec3
  dir : Vec3
  lo : ℚ
  hi : ℚ
deriving DecidableEq

/-- An intersection record, modelling `PT::Trace`. -/
structure Trace where
  hit : Bool
  origin : Vec3
  distance : ℚ
  position : Vec3
  normal : Vec3
deriving DecidableEq

/-- The miss record that `Triangle::hit` / `Sphere::hit` initialise `ret`
with before testing for an intersection. -/
def missTrace (r : Ray) : Trace :=
  ⟨false, r.point, 0, ⟨0, 0, 0⟩, ⟨0, 0, 0⟩⟩

/-- A triangle-mesh vertex (`Tri_Mesh_Vert`): position and shading normal. -/
structure TriVert where
  position : Vec3
  normal : Vec3
deriving DecidableEq

/-- The Moeller-Trumbore denominator `dot(cross(e1, ray.dir), e2)` computed at
src/student/tri_mesh.cpp:47. -/
def triDenom (p0 p1 p2 dir : Vec3) : ℚ :=
  dot (cross (vsub p1 p0) dir) (vsub p2 p0)

/-- The `(u, v, t)` vector `uvt = 1/denom * matx` computed at
src/student/tri_mesh.cpp:56-57. -/
def triUVT (p0 p1 p2 : Vec3) (r : Ray) : Vec3 :=
  let e1 := vsub p1 p0
  let e2 := vsub p2 p0
  let s := vsub r.point p0
  let matx : Vec3 :=
    ⟨dot (smul (-1) (cross s e2)) r.dir,
     dot (cross e1 r.dir) s,
     dot (smul (-1) (cross s e2)) e1⟩
  smul (1 / triDenom p0 p1 p2 r.dir) matx

/-- Embedding of `Triangle::hit` (src/student/tri_mesh.cpp:20-76).  Returns
the trace and the value of `ray.dist_bounds.y` after the call (the code
tightens it to `uvt.z` on a hit).  Note the source really rejects on
`denom <= 1e-6` (not on `|denom| <= 1e-6`), really stores `distance = 2`, and
really computes `position = ray.point - ray.dir * uvt.z`. -/
def Triangle.hit (sq : ℚ → ℚ) (v_0 v_1 v_2 : TriVert) (ray : Ray) : Trace × ℚ :=
  let ret0 := missTrace ray
  let denom := triDenom v_0.position v_1.position v_2.position ray.dir
  if denom ≤ epsQ then (ret0, ray.hi)
  else
    let uvt := triUVT v_0.position v_1.position v_2.position ray
    if uvt.z < ray.hi ∧ uvt.z > ray.lo ∧ uvt.x > 0 ∧ uvt.y > 0 ∧ uvt.x + uvt.y ≤ 1 then
      (⟨true, ray.point, 2,
        vsub ray.point (smul uvt.z ray.dir),
        unitV sq (vadd (vadd (smul uvt.x v_1.normal) (smul uvt.y v_2.normal))
          (smul (1 - uvt.x - uvt.y) v_0.normal))⟩,
       uvt.z)
    else (ret0, ray.hi)

/-- Mirror reflection about the local normal `(0,1,0)`
(src/student/bsdf.cpp:8-13). -/
def reflect (dir : Vec3) : Vec3 := ⟨-dir.x, dir.y, -dir.z⟩

/-- The quantity `out_y_sq = 1 - out_x^2 - out_z^2` computed by `refract`
(src/student/bsdf.cpp:29-35); total internal reflection is the case
`out_y_sq <= 0`. -/
def refractYSq (out_dir : Vec3) (index_of_refraction : ℚ) : ℚ :=
  let eta_t := if out_dir.y > 0 then index_of_refraction else 1
  let eta_i := if out_dir.y > 0 then 1 else index_of_refraction
  let out_x := -out_dir.x * eta_i / eta_t
  let out_z := -out_dir.z * eta_i / eta_t
  1 - out_x * out_x - out_z * out_z

/-- Embedding of `refract` (src/student/bsdf.cpp:15-44); the returned boolean
is `was_internal`.  On total internal reflection the source returns `out_dir`
itself, unchanged. -/
def refract (sq : ℚ → ℚ) (out_dir : Vec3) (index_of_refraction : ℚ) : Vec3 × Bool :=
  let eta_t := if out_dir.y > 0 then index_of_refraction else 1
  let eta_i := if out_dir.y > 0 then 1 else index_of_refraction
  let out_x := -out_dir.x * eta_i / eta_t
  let out_z := -out_dir.z * eta_i / eta_t
  let out_y_sq := 1 - out_x * out_x - out_z * out_z
  if out_y_sq > 0 then
    (⟨out_x, if out_dir.y > 0 then -(sq out_y_sq) else sq out_y_sq, out_z⟩, false)
  else
    (out_dir, true)

/-- RGB spectrum, modelling the library type `Spectrum`; `Spectrum()` is
`⟨0,0,0⟩` and `Spectrum(1.0)` is `⟨1,1,1⟩`. -/
structure Spectrum where
  r : ℚ
  g : ℚ
  b : ℚ
deriving DecidableEq

/-- The part of `BSDF_Sample` that `BSDF_Refract::sample` fills in. -/
structure BSDF_Sample where
  direction : Vec3
  attenuation : Spectrum
  pdf : ℚ
deriving DecidableEq

/-- Embedding of `BSDF_Refract::sample` (src/student/bsdf.cpp:137-150).
Attenuation is `Spectrum()` (zero) when `was_internal` and `Spectrum(1.0)`
otherwise. -/
def BSDF_Refract.sample (sq : ℚ → ℚ) (index_of_refraction : ℚ) (out_dir : Vec3) :
    BSDF_Sample :=
  let rr := refract sq out_dir index_of_refraction
  ⟨rr.1, if rr.2 then ⟨0, 0, 0⟩ else ⟨1, 1, 1⟩, 1⟩

/-- Embedding of `Sphere::hit` (src/student/shapes.cpp:17-65): sphere of
radius `radius` centred at the origin; the caller passes unit-length ray
directions (the quadratic `t^2 + 2 b t + c = 0` solved here assumes it).
Returns the trace and the value of `ray.dist_bounds.y` after the call. -/
def Sphere.hit (sq : ℚ → ℚ) (radius : ℚ) (ray : Ray) : Trace × ℚ :=
  let b := dot ray.point ray.dir
  let c := dot ray.point ray.point - radius * radius
  if b * b - c < 0 then (missTrace ray, ray.hi)
  else
    let t1 := -b + sq (b * b - c)
    let t2 := -b - sq (b * b - c)
    let tmin := if t1 < t2 then t1 else t2
    let tmax := if tmin = t1 then t2 else t1
    if tmin < ray.hi ∧ tmin > ray.lo then
      (⟨true, ray.point, tmin, vadd ray.point (smul tmin ray.dir),
        unitV sq (vadd ray.point (smul tmin ray.dir))⟩, tmin)
    else if tmax < ray.hi ∧ tmax > ray.lo then
      (⟨true, ray.point, tmax, vadd ray.point (smul tmax ray.dir),
        unitV sq (vadd ray.point (smul tmax ray.dir))⟩, tmax)
    else (missTrace ray, ray.hi)

/-- Modelled from the spec: the library `Mat4` (util/camera.h, lib/mat4.h are
not under src/) applied to a `Vec3` acts as an affine map, linear part given
by rows `r0,r1,r2` plus translation `t`; the spec describes the camera ray as
origin `view⁻¹·0` and direction `view⁻¹·sensor − origin`. -/
structure Mat4Aff where
  r0 : Vec3
  r1 : Vec3
  r2 : Vec3
  t : Vec3

/-- Application of the affine map modelling `Mat4 * Vec3` (w = 1). -/
def Mat4Aff.apply (M : Mat4Aff) (v : Vec3) : Vec3 :=
  vadd ⟨dot M.r0 v, dot M.r1 v, dot M.r2 v⟩ M.t

/-- Embedding of `Camera::generate_ray` (the unnamed camera source file,
lines 5-29).  `tanQ` models `std::tan` and `piQ` models the float constant
`PI_F`; the function returns the pair (ray origin, ray direction).  Note the
source fixes the sensor plane at `z = -1` (`Vec3 pos(0,0,-1.0)`) while
scaling the half extents by `focal_dist`. -/
def Camera.generate_ray (tanQ : ℚ → ℚ) (piQ : ℚ) (iview : Mat4Aff)
    (vert_fov aspect_ratio focal_dist : ℚ) (screen_coord : ℚ × ℚ) : Vec3 × Vec3 :=
  let vheight := tanQ (vert_fov * (piQ / 180) / 2) * 2 * focal_dist
  let width := vheight * aspect_ratio
  let xyx := screen_coord.1 * width - width / 2
  let xyy := screen_coord.2 * vheight - vheight / 2
  let pos : Vec3 := ⟨0 + xyx, 0 + xyy, -1⟩
  let o := Mat4Aff.apply iview ⟨0, 0, 0⟩
  (o, vsub (Mat4Aff.apply iview pos) o)

/-- Four-component vector (library `Vec4`). -/
structure Vec4 where
  x : ℚ
  y : ℚ
  z : ℚ
  w : ℚ
deriving DecidableEq

/-- Dot product on four-component vectors (library `dot(Vec4, Vec4)`). -/
def dot4 (a b : Vec4) : ℚ :=
  a.x * b.x + a.y * b.y + a.z * b.z + a.w * b.w

/-- Modelled from the spec: the library `Mat4` (lib/mat4.h is not under src/)
as four rows; quadric matrices are symmetric, so the row/column orientation is
immaterial for the quadratic forms `dot(v, K * v)` evaluated below. -/
structure Mat4 where
  r0 : Vec4
  r1 : Vec4
  r2 : Vec4
  r3 : Vec4
deriving DecidableEq

/-- Matrix-vector product modelling `Mat4 * Vec4`. -/
def Mat4.mulVec (K : Mat4) (v : Vec4) : Vec4 :=
  ⟨dot4 K.r0 v, dot4 K.r1 v, dot4 K.r2 v, dot4 K.r3 v⟩

/-- Homogeneous extension `Vec4(v, w)`. -/
def vec4of (v : Vec3) (w : ℚ) : Vec4 := ⟨v.x, v.y, v.z, w⟩

/-- The quadratic-form cost `dot(Vec4(p,1), K * Vec4(p,1))` used by
`Edge_Record`. -/
def quadCost (K : Mat4) (p : Vec3) : ℚ :=
  dot4 (vec4of p 1) (K.mulVec (vec4of p 1))

/-- Embedding of the singular-matrix fallback branch of the `Edge_Record`
constructor (src/student/meshedit.cpp:1204-1219): sample the combined quadric
`K` at `v_1->pos = p1`, `v_2->pos = p2` and their midpoint, fit
`cost(t) = a t^2 + b t + c`, pick `t = (b == 0) ? 0.5 : -a/(2 b)` clamped to
`[0,1]`, and return `(optimal, cost)`. -/
def edgeRecordFallback (K : Mat4) (p1 p2 : Vec3) : Vec3 × ℚ :=
  let cost_1 := quadCost K p1
  let cost_2 := quadCost K p2
  let mid := smul (1 / 2) (vadd p1 p2)
  let cost_mid := quadCost K mid
  let a := 2 * (cost_2 - 2 * cost_mid + cost_1)
  let b := cost_2 - cost_1 - a
  let c := cost_1
  let t0 := if b = 0 then 1 / 2 else -a / (2 * b)
  let t1 := if t0 < 0 then 0 else t0
  let t := if t1 > 1 then 1 else t1
  (vadd (smul (1 - t) p1) (smul t p2), a * t * t + b * t + c)

/-- A concrete symmetric quadric whose values along the segment from
`(0,0,0)` to `(1,0,0)` are `cost(t) = 2 t^2 - t`. -/
def quadricDemo : Mat4 :=
  ⟨⟨2, 0, 0, -(1 / 2)⟩, ⟨0, 0, 0, 0⟩, ⟨0, 0, 0, 0⟩, ⟨-(1 / 2), 0, 0, 0⟩⟩

/-- The constant `simplification_factor` (src/student/meshedit.cpp:1332). -/
def simplification_factor : ℕ := 4

/-- The face-count target computed by `Halfedge_Mesh::simplify`
(src/student/meshedit.cpp:1425):
`faces.size() - (face_quadrics.size() - face_quadrics.size() / simplification_factor)`,
where `face_quadrics` holds exactly the non-boundary faces; its greedy loop
runs `while (faces.size() > target && edge_queue.size())`.  All sizes are
`size_t`, so subtraction is the truncated natural subtraction. -/
def simplifyTarget (facesSize faceQuadricsSize : ℕ) : ℕ :=
  facesSize - (faceQuadricsSize - faceQuadricsSize / simplification_factor)

/-- A halfedge record: `_twin`, `_next`, `_vertex`, `_edge`, `_face` fields of
`Halfedge_Mesh::Halfedge`, with entity handles modelled as numeric ids. -/
structure Halfedge where
  twin : ℕ
  next : ℕ
  vertex : ℕ
  edge : ℕ
  face : ℕ
deriving DecidableEq

/-- A vertex record: outgoing `_halfedge` and position `pos`. -/
structure Vertex where
  halfedge : ℕ
  pos : Vec3
deriving DecidableEq

/-- An edge record: one of its two `_halfedge`s. -/
structure Edge where
  halfedge : ℕ
deriving DecidableEq

/-- A face record: one boundary `_halfedge` and the `boundary` flag. -/
structure Face where
  halfedge : ℕ
  boundary : Bool
deriving DecidableEq

/-- First-match association-list lookup (entity handle dereference). -/
def lookupA {α : Type} : List (ℕ × α) → ℕ → Option α
  | [], _ => none
  | (j, a) :: tl, i => if j = i then some a else lookupA tl i

/-- In-place association-list update of the entry with key `i` (assignment
through a dereferenced handle); keys are never added or removed. -/
def updateA {α : Type} : List (ℕ × α) → ℕ → (α → α) → List (ℕ × α)
  | [], _, _ => []
  | (k, v) :: tl, i, f => (if k = i then (k, f v) else (k, v)) :: updateA tl i f

/-- The halfedge mesh: the four entity stores plus the deferred-erase marks
(`Halfedge_Mesh::erase` only marks; a later sweep removes). -/
structure Mesh where
  halfedges : List (ℕ × Halfedge)
  vertices : List (ℕ × Vertex)
  edges : List (ℕ × Edge)
  faces : List (ℕ × Face)
  erasedH : List ℕ
  erasedV : List ℕ
  erasedE : List ℕ
  erasedF : List ℕ
deriving DecidableEq

/-- Dereference a halfedge handle. -/
def Mesh.he (m : Mesh) (i : ℕ) : Option Halfedge := lookupA m.halfedges i

/-- Dereference a vertex handle. -/
def Mesh.vtx (m : Mesh) (i : ℕ) : Option Vertex := lookupA m.vertices i

/-- Dereference an edge handle. -/
def Mesh.edge (m : Mesh) (i : ℕ) : Option Edge := lookupA m.edges i

/-- Dereference a face handle. -/
def Mesh.face (m : Mesh) (i : ℕ) : Option Face := lookupA m.faces i

/-- Assignment `h->_next = j`. -/
def setNext (m : Mesh) (i j : ℕ) : Mesh :=
  { m with halfedges := updateA m.halfedges i (fun h => { h with next := j }) }

/-- Assignment `h->_twin = j`. -/
def setTwin (m : Mesh) (i j : ℕ) : Mesh :=
  { m with halfedges := updateA m.halfedges i (fun h => { h with twin := j }) }

/-- Assignment `h->_vertex = j`. -/
def setHVertex (m : Mesh) (i j : ℕ) : Mesh :=
  { m with halfedges := updateA m.halfedges i (fun h => { h with vertex := j }) }

/-- Assignment `h->_edge = j`. -/
def setHEdge (m : Mesh) (i j : ℕ) : Mesh :=
  { m with halfedges := updateA m.halfedges i (fun h => { h with edge := j }) }

/-- Assignment `h->_face = j`. -/
def setHFace (m : Mesh) (i j : ℕ) : Mesh :=
  { m with halfedges := updateA m.halfedges i (fun h => { h with face := j }) }

/-- Assignment `v->_halfedge = j`. -/
def setVHalfedge (m : Mesh) (i j : ℕ) : Mesh :=
  { m with vertices := updateA m.vertices i (fun v => { v with halfedge := j }) }

/-- Assignment `v->pos = p`. -/
def setVPos (m : Mesh) (i : ℕ) (p : Vec3) : Mesh :=
  { m with vertices := updateA m.vertices i (fun v => { v with pos := p }) }

/-- Assignment `e->_halfedge = j`. -/
def setEHalfedge (m : Mesh) (i j : ℕ) : Mesh :=
  { m with edges := updateA m.edges i (fun e => { e with halfedge := j }) }

/-- Assignment `f->_halfedge = j`. -/
def setFHalfedge (m : Mesh) (i j : ℕ) : Mesh :=
  { m with faces := updateA m.faces i (fun f => { f with halfedge := j }) }

/-- Assignment `f->boundary |= b`. -/
def setFBoundaryOr (m : Mesh) (i : ℕ) (b : Bool) : Mesh :=
  { m with faces := updateA m.faces i (fun f => { f with boundary := f.boundary || b }) }

/-- Deferred `erase(halfedge)` mark. -/
def eraseH (m : Mesh) (i : ℕ) : Mesh := { m with erasedH := i :: m.erasedH }

/-- Deferred `erase(vertex)` mark. -/
def eraseV (m : Mesh) (i : ℕ) : Mesh := { m with erasedV := i :: m.erasedV }

/-- Deferred `erase(edge)` mark. -/
def eraseE (m : Mesh) (i : ℕ) : Mesh := { m with erasedE := i :: m.erasedE }

/-- Deferred `erase(face)` mark. -/
def eraseF (m : Mesh) (i : ℕ) : Mesh := { m with erasedF := i :: m.erasedF }

/-- The loop `HalfedgeRef he = start; while (he->next() != target) he = he->next();`
used to find the predecessor of `target` on its face ring; `none` models a
walk that fails to close (or a dangling handle). -/
def prevOf (m : Mesh) : ℕ → ℕ → ℕ → Option ℕ
  | 0, _, _ => none
  | fuel + 1, cur, target =>
    match m.he cur with
    | none => none
    | some h => if h.next = target then some cur else prevOf m fuel h.next target

/-- Body of the face-ring walk: follow `next`, accumulating, until the walk
returns to `h0`. -/
def ringGo (m : Mesh) (h0 : ℕ) : ℕ → ℕ → List ℕ → Option (List ℕ)
  | 0, _, _ => none
  | fuel + 1, cur, acc =>
    if cur = h0 then some acc.reverse
    else
      match m.he cur with
      | none => none
      | some h => ringGo m h0 fuel h.next (cur :: acc)

/-- Collect a face ring `[h0, h0->next(), ...]` by following `next` until the
walk returns to `h0` (the push-then-advance loops of `flip_edge`). -/
def ringFrom (m : Mesh) (fuel : ℕ) (h0 : ℕ) : Option (List ℕ) :=
  match m.he h0 with
  | none => none
  | some h => ringGo m h0 fuel h.next [h0]

/-- One step of the outgoing-halfedge orbit `h -> h->twin()->next()`. -/
def orbitStep (m : Mesh) (cur : ℕ) : Option ℕ := do
  let h ← m.he cur
  let t ← m.he h.twin
  pure t.next

/-- Body of the outgoing-halfedge orbit walk around a vertex. -/
def orbitGo (m : Mesh) (stop : ℕ) : ℕ → ℕ → List ℕ → Option (List ℕ)
  | 0, _, _ => none
  | fuel + 1, cur, acc =>
    if cur = stop then some acc.reverse
    else
      match orbitStep m cur with
      | none => none
      | some nxt => orbitGo m stop fuel nxt (cur :: acc)

/-- Modelled from the spec: `Vertex::neighborhood_halfedges()`
(geometry/halfedge.h is not under src/) collects the outgoing halfedges of a
vertex by the walk of invariant 5, `h -> h->twin()->next()`, starting from
`v->halfedge()` until the walk closes. -/
def neighborhood_halfedges (m : Mesh) (fuel : ℕ) (v : ℕ) : Option (List ℕ) := do
  let vr ← m.vtx v
  let nxt ← orbitStep m vr.halfedge
  orbitGo m vr.halfedge fuel nxt [vr.halfedge]

/-- Modelled from the spec: `Vertex::neighborhood_map()` (geometry/halfedge.h
is not under src/) maps each neighbouring vertex `h->twin()->vertex()` to the
outgoing halfedge `h`; later insertions overwrite earlier ones as in
`std::unordered_map::operator[]`. -/
def neighborhood_map (m : Mesh) (fuel : ℕ) (v : ℕ) : Option (List (ℕ × ℕ)) := do
  let orb ← neighborhood_halfedges m fuel v
  orb.foldlM (fun acc hid => do
    let h ← m.he hid
    let t ← m.he h.twin
    pure ((acc.filter (fun p => p.1 ≠ t.vertex)) ++ [(t.vertex, hid)])) []

/-- The do-while loop of `erase_edge` (src/student/meshedit.cpp:110-114):
starting at `cur`, set `he->_face = f` and advance along the (already
re-spliced) ring until the walk returns to `stop`. -/
def faceRelabel (m : Mesh) : ℕ → ℕ → ℕ → ℕ → Option Mesh
  | 0, _, _, _ => none
  | fuel + 1, stop, cur, f =>
    let m' := setHFace m cur f
    match m'.he cur with
    | none => none
    | some h => if h.next = stop then some m' else faceRelabel m' fuel stop h.next f

/-- Embedding of `Halfedge_Mesh::erase_edge` (src/student/meshedit.cpp:91-121).
Returns the mutated mesh and the merged face; `none` covers both refusal
(adjacent halfedges, or both sides on one face) and a failed dereference, in
either of which the source mutates nothing before returning. -/
def erase_edge (m0 : Mesh) (e : ℕ) (fuel : ℕ) : Option (Mesh × ℕ) := do
  let ed ← m0.edge e
  let he_1id := ed.halfedge
  let he_1 ← m0.he he_1id
  let he_2id := he_1.twin
  let he_2 ← m0.he he_2id
  if he_1id = he_2.next ∨ he_2id = he_1.next then none
  else do
    let he_1nid := he_1.next
    let he_2nid := he_2.next
    let v_1 := he_1.vertex
    let v_2 := he_2.vertex
    let f_1 := he_1.face
    let f_2 := he_2.face
    if f_1 = f_2 then none
    else do
      let he_1pid ← prevOf m0 fuel he_1id he_1id
      let he_2pid ← prevOf m0 fuel he_2id he_2id
      let m1 := setNext m0 he_2pid he_1nid
      let m2 := setNext m1 he_1pid he_2nid
      let m3 ← faceRelabel m2 fuel he_1nid he_1nid f_1
      let m4 := setVHalfedge m3 v_1 he_2nid
      let m5 := setVHalfedge m4 v_2 he_1nid
      let m6 := setFHalfedge m5 f_1 he_1nid
      let f2rec ← m6.face f_2
      let m7 := setFBoundaryOr m6 f_1 f2rec.boundary
      let m8 := eraseE m7 e
      let m9 := eraseH m8 he_1id
      let m10 := eraseH m9 he_2id
      let m11 := eraseF m10 f_2
      pure (m11, f_1)

/-- The shared-neighbour checks run for one entry `(v_3, he_13)` of
`v_1->neighborhood_map()` inside `edge_collapsable`
(src/student/meshedit.cpp:1356-1377). -/
def collapsablePair (m : Mesh) (he_1id he_2id : ℕ) (m_2 : List (ℕ × ℕ))
    (p : ℕ × ℕ) : Option Bool := do
  match lookupA m_2 p.1 with
  | none => pure true
  | some he_23id => do
    let he_13 ← m.he p.2
    let he_23 ← m.he he_23id
    let he_13t ← m.he he_13.twin
    let he_23t ← m.he he_23.twin
    let he_1 ← m.he he_1id
    let he_2 ← m.he he_2id
    let v_123 := (he_13t.next == he_1id) && (he_1.next == he_23id)
    let v_321 := (he_23t.next == he_2id) && (he_2.next == p.2)
    if !v_123 && !v_321 then pure false
    else do
      let he_13n ← m.he he_13.next
      let he_13nt ← m.he he_13n.twin
      let he_23n ← m.he he_23.next
      let he_23nt ← m.he he_23n.twin
      if he_13nt.next == he_23.twin || he_23nt.next == he_13.twin then pure false
      else if he_13t.face == he_23.face && he_23t.face == he_13.face then pure false
      else pure true

/-- Embedding of `edge_collapsable` (src/student/meshedit.cpp:1337-1380), the
gate that `simplify` (and only `simplify`) tests before collapsing. -/
def edge_collapsable (m : Mesh) (e : ℕ) (fuel : ℕ) : Option Bool := do
  let ed ← m.edge e
  let he_1id := ed.halfedge
  let he_1 ← m.he he_1id
  let he_2id := he_1.twin
  let he_2 ← m.he he_2id
  let v_1 := he_1.vertex
  let v_2 := he_2.vertex
  let he_1n ← m.he he_1.next
  if he_1.vertex == he_1n.vertex then pure false
  else do
    let he_2n ← m.he he_2.next
    if he_1n.next == he_1id || he_2n.next == he_2id then pure false
    else do
      let he_1nt ← m.he he_1n.twin
      if he_1nt.next == he_1.twin then pure false
      else do
        let he_2nt ← m.he he_2n.twin
        if he_2nt.next == he_2.twin then pure false
        else do
          let m_1 ← neighborhood_map m fuel v_1
          let m_2 ← neighborhood_map m fuel v_2
          m_1.allM (collapsablePair m he_1id he_2id m_2)

/-- One adjacent-face block of `collapse_edge`
(src/student/meshedit.cpp:163-186, run once per side): rewire the fused
edges' halfedge pointers, then either remove a triangular face entirely or
just drop one boundary halfedge of a larger face.  Returns the mesh and the
pair `(he_n_twin, he_p_twin)` the remainder of `collapse_edge` uses. -/
def collapseSide (m1 : Mesh) (henid hepid : ℕ) : Option (Mesh × ℕ × ℕ) := do
  let he_n ← m1.he henid
  let he_p ← m1.he hepid
  let he_n_twin := he_n.twin
  let he_p_twin := he_p.twin
  let m2 := setEHalfedge m1 he_n.edge he_n_twin
  let m3 := setEHalfedge m2 he_p.edge he_p_twin
  if he_n.next = hepid then do
    let m4 := setTwin m3 he_n_twin he_p_twin
    let m5 := setTwin m4 he_p_twin he_n_twin
    let he_n_c ← m5.he henid
    let m8 := eraseE (eraseH (eraseH m5 henid) hepid) he_n_c.edge
    let he_n_c2 ← m8.he henid
    let m9 := eraseF m8 he_n_c2.face
    let he_p_c ← m9.he hepid
    let m10 := setHEdge m9 he_n_twin he_p_c.edge
    let he_p_c2 ← m10.he hepid
    pure (setVHalfedge m10 he_p_c2.vertex he_n_twin, he_n_twin, he_p_twin)
  else do
    let m4 := setNext m3 hepid henid
    let he_p_c ← m4.he hepid
    pure (setFHalfedge m4 he_p_c.face hepid, he_n_twin, he_p_twin)

/-- The boundary-edge cleanup at the end of `collapse_edge`
(src/student/meshedit.cpp:193-197): if both faces of the fused edge are
boundary faces, `erase_edge` it, discarding that call's result value. -/
def collapseCleanup (m : Mesh) (hnt fuel : ℕ) : Option Mesh := do
  let h1t ← m.he hnt
  let f_a ← m.face h1t.face
  if f_a.boundary then do
    let h1tt ← m.he h1t.twin
    let f_b ← m.face h1tt.face
    if f_b.boundary then
      pure (match erase_edge m h1t.edge fuel with
            | some r => r.1
            | none => m)
    else pure m
  else pure m

/-- The body of `collapse_edge` after the initial dereference of the edge's
first halfedge: all the remaining reads, writes and erasures, producing the
final mesh. -/
def collapse_edge_rest (m0 : Mesh) (fuel : ℕ) (ed : Edge) (he_1 : Halfedge) :
    Option Mesh := do
  let he_1id := ed.halfedge
  let he_2id := he_1.twin
  let he_2 ← m0.he he_2id
  let he_1nid := he_1.next
  let he_2nid := he_2.next
  let v_1 := he_1.vertex
  let v_2 := he_2.vertex
  let he_1pid ← prevOf m0 fuel he_1id he_1id
  let he_2pid ← prevOf m0 fuel he_2id he_2id
  let v_2_nhe ← neighborhood_halfedges m0 fuel v_2
  let m1 := v_2_nhe.foldl (fun acc h => setHVertex acc h v_1) m0
  let r1 ← collapseSide m1 he_1nid he_1pid
  let r2 ← collapseSide r1.1 he_2nid he_2pid
  let mC1 := setVHalfedge r2.1 v_1 r2.2.2
  let v1r ← mC1.vtx v_1
  let v2r ← mC1.vtx v_2
  let mC2 := setVPos mC1 v_1 (smul (1 / 2) (vadd v1r.pos v2r.pos))
  let mC5 := eraseV (eraseH (eraseH mC2 he_1id) he_2id) v_2
  let he_1c ← mC5.he he_1id
  let mC6 := eraseE mC5 he_1c.edge
  let mD ← collapseCleanup mC6 r1.2.1 fuel
  let mE ← collapseCleanup mD r2.2.1 fuel
  pure mE

/-- Embedding of `Halfedge_Mesh::collapse_edge` (src/student/meshedit.cpp:127-198).
Returns the mutated mesh and the surviving vertex `v_1 = e->halfedge()->vertex()`.
The source contains no refusal path: `none` arises only from a dereference
failure or a non-closing walk (undefined behaviour territory of the C++),
never from a topology test — the function performs the collapse
unconditionally, without consulting `edge_collapsable`. -/
def collapse_edge (m0 : Mesh) (e : ℕ) (fuel : ℕ) : Option (Mesh × ℕ) := do
  let ed ← m0.edge e
  let he_1 ← m0.he ed.halfedge
  let mE ← collapse_edge_rest m0 fuel ed he_1
  pure (mE, he_1.vertex)

/-- The handles gathered by the collection phase of `flip_edge`
(src/student/meshedit.cpp:341-387): the concatenated ring vector `h`, the
deduplicated vertex vector `v`, and the two faces, at the indices the
reassignment phase uses. -/
structure FlipParams where
  h0 : ℕ
  h1 : ℕ
  h2 : ℕ
  hl1m1 : ℕ
  hl1 : ℕ
  hl1p1 : ℕ
  hl1p2 : ℕ
  hlast : ℕ
  v0 : ℕ
  v1 : ℕ
  v2 : ℕ
  vl1 : ℕ
  f0 : ℕ
  f1 : ℕ
deriving DecidableEq

/-- The vector indexing `h.at(i)` / `v.at(i)` performed by the reassignment
statements of `flip_edge`; out-of-range access gives `none`. -/
def flipIndexing (h v : List ℕ) (l1 f0id f1id : ℕ) : Option FlipParams := do
  let h0 ← h.get? 0
  let h1 ← h.get? 1
  let h2 ← h.get? 2
  let hl1m1 ← h.get? (l1 - 1)
  let hl1 ← h.get? l1
  let hl1p1 ← h.get? (l1 + 1)
  let hl1p2 ← h.get? (l1 + 2)
  let hlast ← h.get? (h.length - 1)
  let v0 ← v.get? 0
  let v1 ← v.get? 1
  let v2 ← v.get? 2
  let vl1 ← v.get? l1
  pure ⟨h0, h1, h2, hl1m1, hl1, hl1p1, hl1p2, hlast, v0, v1, v2, vl1, f0id, f1id⟩

/-- Collection phase of `flip_edge`: the boundary refusal, the two face-ring
walks, the vertex gathering with its duplicate test, and the vector indexing
done by the reassignment statements.  `none` models both the boundary refusal
and an out-of-range `.at()`. -/
def flipCollect (m : Mesh) (e : ℕ) (fuel : ℕ) : Option FlipParams := do
  let ed ← m.edge e
  let he0 ← m.he ed.halfedge
  let tw ← m.he he0.twin
  let f0 ← m.face he0.face
  let f1 ← m.face tw.face
  if f0.boundary || f1.boundary then none
  else do
    let ring1 ← ringFrom m fuel ed.halfedge
    let ring2 ← ringFrom m fuel he0.twin
    let v1list ← ring1.mapM (fun i => (m.he i).map (fun x => x.vertex))
    let v ← ring2.foldlM (fun acc i => do
        let hh ← m.he i
        pure (if acc.contains hh.vertex then acc else acc ++ [hh.vertex])) v1list
    flipIndexing (ring1 ++ ring2) v ring1.length he0.face tw.face

/-- Reassignment phase of `flip_edge` (src/student/meshedit.cpp:390-420), the
exact sequence of pointer writes of the source; it performs no allocation and
no erasure. -/
def flipWrites (m : Mesh) (e : ℕ) (p : FlipParams) : Mesh :=
  let m := setNext m p.h0 p.h2
  let m := setHVertex m p.h0 p.vl1
  let m := setTwin m p.h0 p.hl1
  let m := setHEdge m p.h0 e
  let m := setHFace m p.h0 p.f0
  let m := setNext m p.hl1 p.hl1p2
  let m := setHVertex m p.hl1 p.v2
  let m := setTwin m p.hl1 p.h0
  let m := setHEdge m p.hl1 e
  let m := setHFace m p.hl1 p.f1
  let m := setNext m p.hl1m1 p.hl1p1
  let m := setHFace m p.hl1m1 p.f0
  let m := setNext m p.hl1p1 p.h0
  let m := setHFace m p.hl1p1 p.f0
  let m := setNext m p.hlast p.h1
  let m := setHFace m p.hlast p.f1
  let m := setNext m p.h1 p.hl1
  let m := setHFace m p.h1 p.f1
  let m := setVHalfedge m p.v0 p.hl1p1
  let m := setVHalfedge m p.v1 p.h1
  let m := setEHalfedge m e p.h0
  let m := setFHalfedge m p.f0 p.h0
  let m := setFHalfedge m p.f1 p.hl1
  m

/-- Embedding of `Halfedge_Mesh::flip_edge` (src/student/meshedit.cpp:338-430):
collect, reassign, and `return e`. -/
def flip_edge (m : Mesh) (e : ℕ) (fuel : ℕ) : Option (Mesh × ℕ) :=
  (flipCollect m e fuel).map (fun p => (flipWrites m e p, e))

/-- The `float` constant `FLT_MAX`, modelled by a rational sentinel larger
than any coordinate appearing in a scene. -/
def FLT_MAX_Q : ℚ := 2 ^ 128

/-- Componentwise minimum (library `hmin`). -/
def vmin (a b : Vec3) : Vec3 := ⟨min a.x b.x, min a.y b.y, min a.z b.z⟩

/-- Componentwise maximum (library `hmax`). -/
def vmax (a b : Vec3) : Vec3 := ⟨max a.x b.x, max a.y b.y, max a.z b.z⟩

/-- Axis-aligned bounding box, modelling the library type `BBox` with `min`
and `max` corners. -/
structure BBox where
  min : Vec3
  max : Vec3
deriving DecidableEq

/-- Modelled from the spec: the default `BBox()` (lib/bbox.h is not under
src/) is the empty box, corners at the `FLT_MAX` sentinels. -/
def BBox.empty : BBox :=
  ⟨⟨FLT_MAX_Q, FLT_MAX_Q, FLT_MAX_Q⟩, ⟨-FLT_MAX_Q, -FLT_MAX_Q, -FLT_MAX_Q⟩⟩

/-- Modelled from the spec: `BBox::enclose(box)` grows the box to contain
another box (componentwise min/max of the corners). -/
def BBox.enclose (b o : BBox) : BBox := ⟨vmin b.min o.min, vmax b.max o.max⟩

/-- Modelled from the spec: `BBox::surface_area()`,
`2 (dx dy + dy dz + dz dx)` of the extents. -/
def BBox.surface_area (b : BBox) : ℚ :=
  let e := vsub b.max b.min
  2 * (e.x * e.y + e.y * e.z + e.z * e.x)

/-- One slab test of `BBox::hit` (src/student/bbox.cpp:12-46): for a zero
direction component, pass `(times.x, times.y)` through when the origin lies
between the planes and reject otherwise; for a nonzero component, the sorted
pair of plane intersection parameters. -/
def slab (bmin bmax p d tlo thi : ℚ) : Option (ℚ × ℚ) :=
  if d = 0 then
    if bmin ≤ p ∧ p ≤ bmax then some (tlo, thi) else none
  else
    let u := (bmin - p) / d
    let v := (bmax - p) / d
    if u > v then some (v, u) else some (u, v)

/-- Embedding of `BBox::hit` (src/student/bbox.cpp:5-53).  Arguments: the ray
origin and direction, the ray's `dist_bounds` `(rlo, rhi)`, and the `times`
in-out parameter `(tlo, thi)`.  Returns the boolean result together with the
final value of `times`; the zero-direction early returns leave `times`
unchanged, the main path always writes `(amin, amax)` back. -/
def BBox.hit (bb : BBox) (point dir : Vec3) (rlo rhi tlo thi : ℚ) : Bool × ℚ × ℚ :=
  match slab bb.min.x bb.max.x point.x dir.x tlo thi with
  | none => (false, tlo, thi)
  | some (xmin, xmax) =>
    match slab bb.min.y bb.max.y point.y dir.y tlo thi with
    | none => (false, tlo, thi)
    | some (ymin, ymax) =>
      match slab bb.min.z bb.max.z point.z dir.z tlo thi with
      | none => (false, tlo, thi)
      | some (zmin, zmax) =>
        let amin := Max.max (Max.max (Max.max rlo tlo) xmin) (Max.max ymin zmin)
        let amax := Min.min (Min.min (Min.min rhi thi) xmax) (Min.min ymax zmax)
        (decide (amin ≤ amax), amin, amax)

/-- A candidate hit of a primitive: ray parameter, position, normal. -/
abbrev Cand : Type := ℚ × Vec3 × Vec3

/-- A BVH primitive (the template parameter of `BVH<Primitive>`; the spec's
primitive contract, section 6, asks only for `bbox()` and `hit(&Ray)`):
its bounding box and the finite set of candidate hits along the ray under
consideration.  `hit` (below) returns the closest candidate strictly inside
the ray's current `(t_min, t_max)` window and tightens `t_max` to it, which
is exactly the behaviour of the two concrete primitives in src/
(`Sphere::hit`, `Triangle::hit`). -/
structure Prim where
  box : BBox
  cands : List Cand
deriving DecidableEq

/-- The closest candidate strictly within the window `(lo, hi)`; earlier
candidates win ties, matching the strict-inequality update of the sources. -/
def bestCand : List Cand → ℚ → ℚ → Option Cand
  | [], _, _ => none
  | c :: tl, lo, hi =>
    if lo < c.1 ∧ c.1 < hi then
      match bestCand tl lo hi with
      | none => some c
      | some c0 => if c0.1 < c.1 then some c0 else some c
    else bestCand tl lo hi

/-- The primitive `hit` of the BVH contract: returns the trace and the new
`t_max` (tightened to the hit distance on a hit, unchanged otherwise). -/
def Prim.hit (p : Prim) (origin : Vec3) (lo hi : ℚ) : Trace × ℚ :=
  match bestCand p.cands lo hi with
  | none => (⟨false, origin, 0, ⟨0, 0, 0⟩, ⟨0, 0, 0⟩⟩, hi)
  | some c => (⟨true, origin, c.1, c.2.1, c.2.2⟩, c.1)

/-- Modelled from the spec: `Trace::min` (rays/trace.h is not under src/)
keeps the hit with the smaller distance, or whichever of the two is a hit;
on an exact tie it keeps the first argument. -/
def Trace.min (a b : Trace) : Trace :=
  if a.hit && b.hit then (if a.distance ≤ b.distance then a else b)
  else if a.hit then a else b

/-- Modelled from the spec: the default-constructed `Trace closest` that
`BVH::hit` starts from (`hit = false`, other fields zero). -/
def defaultTrace : Trace := ⟨false, ⟨0, 0, 0⟩, 0, ⟨0, 0, 0⟩, ⟨0, 0, 0⟩⟩

/-- The leaf loop of `hit_subtree` (src/student/bvh.inl:172-176): call `hit`
on each primitive of the slice in turn, each call reading — and possibly
tightening — the ray's `t_max`, and fold the traces with `Trace::min`. -/
def hitPrims (origin : Vec3) (lo : ℚ) (ps : List Prim) (st : Trace × ℚ) : Trace × ℚ :=
  ps.foldl (fun st p =>
    let r := p.hit origin lo st.2
    (Trace.min st.1 r.1, r.2)) st

/-- The linear reference scan of the refinement claim (spec section 8: a scan
that calls `hit` on every primitive in sequence and keeps the closest). -/
def linearScan (ps : List Prim) (ray : Ray) : Trace :=
  (hitPrims ray.point ray.lo ps (defaultTrace, ray.hi)).1

/-- The BVH tree: `nodes` with `l == r` are leaves owning a primitive slice;
internal nodes own two children (in the source the node array stores child
indices; the slice structure is represented directly). -/
inductive BVHTree where
  | leaf (box : BBox) (ps : List Prim)
  | node (box : BBox) (l r : BVHTree)
deriving DecidableEq

/-- The bounding box stored at the root node of a subtree. -/
def BVHTree.box : BVHTree → BBox
  | .leaf b _ => b
  | .node b _ _ => b

/-- The primitive slice covered by a subtree (leaf slices left to right). -/
def BVHTree.prims : BVHTree → List Prim
  | .leaf _ ps => ps
  | .node _ l r => l.prims ++ r.prims

/-- Embedding of `BVH::hit_subtree` (src/student/bvh.inl:168-202), state
`(closest, t_max)`: at a leaf run the primitive loop; at an internal node
test both child boxes against the ray's current bounds, prune a child whose
entry time is not below the current closest distance, and descend — with the
source's exact (partly redundant) sequence of descents and re-checks. -/
def hit_subtree (ray : Ray) : BVHTree → Trace × ℚ → Trace × ℚ
  | .leaf _ ps, st => hitPrims ray.point ray.lo ps st
  | .node _ l r, st =>
    let cur := st.2
    let resL := BBox.hit l.box ray.point ray.dir ray.lo cur ray.lo cur
    let l_int := resL.1 && (!st.1.hit || decide (resL.2.1 < st.1.distance))
    let resR := BBox.hit r.box ray.point ray.dir ray.lo cur ray.lo cur
    let r_int := resR.1 && (!st.1.hit || decide (resR.2.1 < st.1.distance))
    if !l_int && !r_int then st
    else
      let st1 := if !l_int then hit_subtree ray r st else st
      let st2 := if !r_int then hit_subtree ray l st1 else st1
      if resL.2.1 < resR.2.1 then
        let st3 := hit_subtree ray l st2
        let ri := r_int && (!st3.1.hit || decide (resR.2.1 < st3.1.distance))
        if ri then hit_subtree ray r st3 else st3
      else
        let st3 := hit_subtree ray r st2
        let li := l_int && (!st3.1.hit || decide (resL.2.1 < st3.1.distance))
        if li then hit_subtree ray l st3 else st3

/-- Embedding of `BVH::hit` (src/student/bvh.inl:204-222): short-circuit to a
miss when `nodes` is empty (`none` tree), otherwise test the root box with
`times = ray.dist_bounds` and traverse on success. -/
def BVH.hit (t : Option BVHTree) (ray : Ray) : Trace :=
  match t with
  | none => defaultTrace
  | some tr =>
    let res := BBox.hit tr.box ray.point ray.dir ray.lo ray.hi ray.lo ray.hi
    if res.1 then (hit_subtree ray tr (defaultTrace, ray.hi)).1 else defaultTrace

/-- The number of SAH bins, `N_BINS = 16` (src/student/bvh.inl:6). -/
def N_BINS : ℤ := 16

/-- Component access `v[axis]` with the source's `int` axis (the initial
`best_axis = -1` would be undefined behaviour in C++; the model returns 0,
which the empty-side check below turns into a leaf either way). -/
def comp (v : Vec3) (axis : ℤ) : ℚ :=
  if axis = 0 then v.x else if axis = 1 then v.y else if axis = 2 then v.z else 0

/-- The bin index of a primitive box on an axis
(src/student/bvh.inl:104-107): project the box centre into 16 equal-width
bins across `[mn, mx]` and clamp to `[0, 15]`.  The float-to-int cast
truncates; after the clamp to `[0, 15]` truncation and floor agree. -/
def binOf (axis : ℤ) (mn mx : ℚ) (b : BBox) : ℤ :=
  let q := ((comp b.max axis + comp b.min axis) / 2 - mn) * 16 / (mx - mn)
  let bin := ⌊q⌋
  if bin < 0 then 0 else if bin ≥ 16 then 15 else bin

/-- The box of one bin: the union of the boxes of the primitives whose bin
index is `i` (the `bbox_bin` accumulation, src/student/bvh.inl:110). -/
def binBox (axis : ℤ) (mn mx : ℚ) (ps : List Prim) (i : ℤ) : BBox :=
  (ps.filter (fun p => binOf axis mn mx p.box = i)).foldl
    (fun acc p => acc.enclose p.box) BBox.empty

/-- The primitive count of one bin (the `cnt_bin` accumulation). -/
def binCount (axis : ℤ) (mn mx : ℚ) (ps : List Prim) (i : ℤ) : ℕ :=
  (ps.filter (fun p => binOf axis mn mx p.box = i)).length

/-- The prefix box `left_bbox[i]`: union of bins `0 .. i-1`. -/
def leftBox (axis : ℤ) (mn mx : ℚ) (ps : List Prim) (i : ℕ) : BBox :=
  (List.range i).foldl (fun acc k => acc.enclose (binBox axis mn mx ps k)) BBox.empty

/-- The prefix count `left_sum[i]`. -/
def leftSum (axis : ℤ) (mn mx : ℚ) (ps : List Prim) (i : ℕ) : ℕ :=
  (List.range i).foldl (fun acc k => acc + binCount axis mn mx ps k) 0

/-- The suffix box `right_bbox[i]`: union of the last `i` bins. -/
def rightBox (axis : ℤ) (mn mx : ℚ) (ps : List Prim) (i : ℕ) : BBox :=
  (List.range i).foldl (fun acc k => acc.enclose (binBox axis mn mx ps (15 - k))) BBox.empty

/-- The suffix count `right_sum[i]`. -/
def rightSum (axis : ℤ) (mn mx : ℚ) (ps : List Prim) (i : ℕ) : ℕ :=
  (List.range i).foldl (fun acc k => acc + binCount axis mn mx ps (15 - k)) 0

/-- The running best split of the SAH search: cost, axis, split index, and
the two child boxes. -/
structure BestSplit where
  cost : ℚ
  axis : ℤ
  split : ℤ
  lbox : BBox
  rbox : BBox

/-- The SAH double loop (src/student/bvh.inl:94-134): for each axis and each
of the 15 split positions, `cost = SA(L)·|L| + SA(R)·|R|`; keep the strict
minimum, initialised to `FLT_MAX` with axis and split `-1`. -/
def sahBest (box : BBox) (ps : List Prim) : BestSplit :=
  [0, 1, 2].foldl (fun acc axis =>
    let mn := comp box.min axis
    let mx := comp box.max axis
    (List.range 15).foldl (fun acc i0 =>
      let i := i0 + 1
      let cost := (leftBox axis mn mx ps i).surface_area * leftSum axis mn mx ps i +
        (rightBox axis mn mx ps (16 - i)).surface_area * rightSum axis mn mx ps (16 - i)
      if cost < acc.cost then
        ⟨cost, axis, Int.ofNat i, leftBox axis mn mx ps i, rightBox axis mn mx ps (16 - i)⟩
      else acc) acc)
    ⟨FLT_MAX_Q, -1, -1, BBox.empty, BBox.empty⟩

/-- Whether the partition step sends a primitive to the left child:
`best_bin_cnt[i] <= best_split` (src/student/bvh.inl:137). -/
def goesLeft (box : BBox) (bs : BestSplit) (p : Prim) : Bool :=
  binOf bs.axis (comp box.min bs.axis) (comp box.max bs.axis) p.box ≤ bs.split

/-- Embedding of `BVH::build_subtree` (src/student/bvh.inl:84-166): leaves at
`size <= max_leaf_size`, otherwise the SAH split, the stable in-place
partition, the empty-side leaf fallback, and recursion into the two child
slices with the swept child boxes. -/
def build_subtree (box : BBox) (ps : List Prim) (maxLeaf : ℕ) : BVHTree :=
  if ps.length ≤ maxLeaf then .leaf box ps
  else
    let bs := sahBest box ps
    let lps := ps.filter (fun p => goesLeft box bs p)
    let rps := ps.filter (fun p => !goesLeft box bs p)
    if h : lps.length = 0 ∨ rps.length = 0 then .leaf box ps
    else .node box (build_subtree bs.lbox lps maxLeaf) (build_subtree bs.rbox rps maxLeaf)
termination_by ps.length
decreasing_by
  · have hsum := List.length_eq_length_filter_add (l := ps) (fun p => goesLeft box (sahBest box ps) p)
    have hr : 0 < (ps.filter (fun p => !goesLeft box (sahBest box ps) p)).length :=
      Nat.pos_of_ne_zero (fun hh => h (Or.inr hh))
    omega
  · have hsum := List.length_eq_length_filter_add (l := ps) (fun p => goesLeft box (sahBest box ps) p)
    have hl : 0 < (ps.filter (fun p => goesLeft box (sahBest box ps) p)).length :=
      Nat.pos_of_ne_zero (fun hh => h (Or.inl hh))
    omega

/-- Embedding of `BVH::build` (src/student/bvh.inl:12-79): an empty primitive
set yields an empty node array (`none`); otherwise the root covers the union
of all primitive boxes and `build_subtree` recurses. -/
def BVH.build (ps : List Prim) (maxLeaf : ℕ) : Option BVHTree :=
  if ps.isEmpty then none
  else
    let bb := ps.foldl (fun acc p => acc.enclose p.box) BBox.empty
    some (build_subtree bb ps maxLeaf)

/-- The principal return value of `collapse_edge`: the source vertex of the
edge's first halfedge, `e->halfedge()->vertex()` (`v_1`,
src/student/meshedit.cpp:142-143). -/
def collapseV1 (m : Mesh) (e : ℕ) : Option ℕ :=
  (m.edge e).bind (fun ed => (m.he ed.halfedge).map (fun h => h.vertex))

/-- A dihedron: two vertices joined by two edges bounding two 2-gon faces.
Every `edge_collapsable` 2-gon test fires on it, yet it is a structurally
well-formed halfedge mesh (twins, next-rings and vertex orbits all close). -/
def dihedron : Mesh :=
  { halfedges := [(1, ⟨3, 2, 1, 1, 1⟩), (2, ⟨4, 1, 2, 2, 1⟩), (3, ⟨1, 4, 2, 1, 2⟩),
      (4, ⟨2, 3, 1, 2, 2⟩)],
    vertices := [(1, ⟨1, ⟨0, 0, 0⟩⟩), (2, ⟨2, ⟨1, 0, 0⟩⟩)],
    edges := [(1, ⟨1⟩), (2, ⟨2⟩)],
    faces := [(1, ⟨1, false⟩), (2, ⟨3, false⟩)],
    erasedH := [], erasedV := [], erasedE := [], erasedF := [] }

/-- The result of `collapse_edge dihedron 1 10` (checked by evaluation): the
mutated mesh after the degenerate collapse. -/
def collapsedDihedron : Mesh :=
  { halfedges := [(1, ⟨3, 2, 1, 1, 1⟩), (2, ⟨4, 2, 1, 2, 1⟩), (3, ⟨1, 4, 1, 1, 2⟩),
      (4, ⟨2, 4, 1, 2, 2⟩)],
    vertices := [(1, ⟨2, ⟨1 / 2, 0, 0⟩⟩), (2, ⟨2, ⟨1, 0, 0⟩⟩)],
    edges := [(1, ⟨1⟩), (2, ⟨2⟩)],
    faces := [(1, ⟨2, false⟩), (2, ⟨4, false⟩)],
    erasedH := [3, 1], erasedV := [2], erasedE := [1], erasedF := [] }

/-- The unit square `A(0,0) B(1,0) C(1,1) D(0,1)` triangulated by the
diagonal `BD` (edge 2), with one boundary face (face 3) closing the outside:
the literal mesh of spec scenario 1. -/
def squareMesh : Mesh :=
  { halfedges := [(1, ⟨7, 2, 1, 1, 1⟩), (2, ⟨6, 3, 2, 2, 1⟩), (3, ⟨8, 1, 4, 3, 1⟩),
      (4, ⟨10, 5, 2, 4, 2⟩), (5, ⟨9, 6, 3, 5, 2⟩), (6, ⟨2, 4, 4, 2, 2⟩),
      (7, ⟨1, 8, 2, 1, 3⟩), (8, ⟨3, 9, 1, 3, 3⟩), (9, ⟨5, 10, 4, 5, 3⟩),
      (10, ⟨4, 7, 3, 4, 3⟩)],
    vertices := [(1, ⟨1, ⟨0, 0, 0⟩⟩), (2, ⟨2, ⟨1, 0, 0⟩⟩), (3, ⟨5, ⟨1, 1, 0⟩⟩),
      (4, ⟨3, ⟨0, 1, 0⟩⟩)],
    edges := [(1, ⟨1⟩), (2, ⟨2⟩), (3, ⟨3⟩), (4, ⟨4⟩), (5, ⟨5⟩)],
    faces := [(1, ⟨1, false⟩), (2, ⟨4, false⟩), (3, ⟨7, true⟩)],
    erasedH := [], erasedV := [], erasedE := [], erasedF := [] }

/-- The mesh produced by `flip_edge squareMesh 2 20` (the spec scenario-1
flip of diagonal `BD` to `AC`), exhibited literally. -/
def flippedSquare : Mesh :=
  { halfedges := [(1, ⟨7, 4, 1, 1, 1⟩), (2, ⟨6, 1, 3, 2, 1⟩), (3, ⟨8, 6, 4, 3, 2⟩),
      (4, ⟨10, 2, 2, 4, 1⟩), (5, ⟨9, 3, 3, 5, 2⟩), (6, ⟨2, 5, 1, 2, 2⟩),
      (7, ⟨1, 8, 2, 1, 3⟩), (8, ⟨3, 9, 1, 3, 3⟩), (9, ⟨5, 10, 4, 5, 3⟩),
      (10, ⟨4, 7, 3, 4, 3⟩)],
    vertices := [(1, ⟨1, ⟨0, 0, 0⟩⟩), (2, ⟨4, ⟨1, 0, 0⟩⟩), (3, ⟨5, ⟨1, 1, 0⟩⟩),
      (4, ⟨3, ⟨0, 1, 0⟩⟩)],
    edges := [(1, ⟨1⟩), (2, ⟨2⟩), (3, ⟨3⟩), (4, ⟨4⟩), (5, ⟨5⟩)],
    faces := [(1, ⟨2, false⟩), (2, ⟨6, false⟩), (3, ⟨7, true⟩)],
    erasedH := [], erasedV := [], erasedE := [], erasedF := [] }

/-- The quadratic half-coefficient `b = dot(ray.point, ray.dir)` of
`Sphere::hit` (src/student/shapes.cpp:35). -/
def sphereB (ray : Ray) : ℚ := dot ray.point ray.dir

/-- The constant term `c = |origin|^2 - r^2` of `Sphere::hit`
(src/student/shapes.cpp:36). -/
def sphereC (radius : ℚ) (ray : Ray) : ℚ :=
  dot ray.point ray.point - radius * radius

/-- The modelled `sqrt(b*b - c)` of `Sphere::hit`. -/
def sphereS (sq : ℚ → ℚ) (radius : ℚ) (ray : Ray) : ℚ :=
  sq (sphereB ray * sphereB ray - sphereC radius ray)

/-- The smaller root `-b - sqrt(b^2 - c)`. -/
def sphereTmin (sq : ℚ → ℚ) (radius : ℚ) (ray : Ray) : ℚ :=
  -sphereB ray - sphereS sq radius ray

/-- The larger root `-b + sqrt(b^2 - c)`. -/
def sphereTmax (sq : ℚ → ℚ) (radius : ℚ) (ray : Ray) : ℚ :=
  -sphereB ray + sphereS sq radius ray

/-- The return value claimed for a sphere hit at parameter `t`: hit trace at
distance `t`, position on the ray, normal equal to the hit point divided by
the radius, and `t_max` tightened to `t`. -/
def sphereHitAt (radius : ℚ) (ray : Ray) (t : ℚ) : Trace × ℚ :=
  (⟨true, ray.point, t, vadd ray.point (smul t ray.dir),
    smul (1 / radius) (vadd ray.point (smul t ray.dir))⟩, t)

/-- A point-like primitive at `(1/2, 5, 0)`, off the ray, never hit. -/
def primA : Prim := ⟨⟨⟨1/2, 5, 0⟩, ⟨1/2, 5, 0⟩⟩, []⟩

/-- A point-like primitive at `(3/2, 0, 0)` on the ray below, hit at `t = 17/2`. -/
def primP : Prim := ⟨⟨⟨3/2, 0, 0⟩, ⟨3/2, 0, 0⟩⟩, [(17/2, ⟨3/2, 0, 0⟩, ⟨1, 0, 0⟩)]⟩

/-- A point-like primitive at `(31/2, 0, 0)`, behind the ray origin, never hit. -/
def primB : Prim := ⟨⟨⟨31/2, 0, 0⟩, ⟨31/2, 0, 0⟩⟩, []⟩

/-- The ray `origin (10,0,0), dir (-1,0,0), dist_bounds [0, 1000]`: it passes
through `primP` and through the boxes of both children of the tree that
`BVH::build` produces from the three primitives above. -/
def bvhRay : Ray := ⟨⟨10, 0, 0⟩, ⟨-1, 0, 0⟩, 0, 1000⟩

/-- C3: on the spec's literal scenario — triangle `(0,0,0), (1,0,0), (0,1,0)`,
ray origin `(1/4, 1/4, 1)`, direction `(0,0,-1)`, unbounded interval — the
code does report a hit, but stores `distance = 2` (a hard-coded constant
instead of the computed `t = 1`) and `position = origin - dir * t = (1/4, 1/4, 2)`
(sign slip) where the claim expects distance 1 and position `(1/4, 1/4, 0)`. -/
theorem triangle_unit_example_distance_bug :
    (Triangle.hit (fun _ => 1) ⟨⟨0, 0, 0⟩, ⟨0, 0, 1⟩⟩ ⟨⟨1, 0, 0⟩, ⟨0, 0, 1⟩⟩
        ⟨⟨0, 1, 0⟩, ⟨0, 0, 1⟩⟩ ⟨⟨1 / 4, 1 / 4, 1⟩, ⟨0, 0, -1⟩, 0, 10 ^ 38⟩).1 =
      ⟨true, ⟨1 / 4, 1 / 4, 1⟩, 2, ⟨1 / 4, 1 / 4, 2⟩, ⟨0, 0, 1⟩⟩ := by
  norm_num [Triangle.hit, triDenom, triUVT, missTrace, epsQ, dot, cross, vsub, vadd,
    smul, unitV, Trace.mk.injEq, Vec3.mk.injEq]

/-- C4 counterexample: the mirrored triangle `(0,0,0), (0,1,0), (1,0,0)` with
the same ray has Moeller-Trumbore denominator `-1`, barycentric coordinates
`u = v = 1/4 ≥ 0` and `t = 1` inside `[0, 10^9]` — the claim says this hit is
reported (`|d| > 1e-6`), but the source tests `denom <= 1e-6` and so culls
every negative-denominator (back-facing) intersection. -/
theorem triangle_negative_denominator_culled :
    triDenom ⟨0, 0, 0⟩ ⟨0, 1, 0⟩ ⟨1, 0, 0⟩ ⟨0, 0, -1⟩ = -1 ∧
    epsQ < |triDenom ⟨0, 0, 0⟩ ⟨0, 1, 0⟩ ⟨1, 0, 0⟩ ⟨0, 0, -1⟩| ∧
    triUVT ⟨0, 0, 0⟩ ⟨0, 1, 0⟩ ⟨1, 0, 0⟩ ⟨⟨1 / 4, 1 / 4, 1⟩, ⟨0, 0, -1⟩, 0, 10 ^ 9⟩ =
      ⟨1 / 4, 1 / 4, 1⟩ ∧
    (Triangle.hit (fun _ => 1) ⟨⟨0, 0, 0⟩, ⟨0, 0, 1⟩⟩ ⟨⟨0, 1, 0⟩, ⟨0, 0, 1⟩⟩
        ⟨⟨1, 0, 0⟩, ⟨0, 0, 1⟩⟩ ⟨⟨1 / 4, 1 / 4, 1⟩, ⟨0, 0, -1⟩, 0, 10 ^ 9⟩).1.hit = false := by
  norm_num [Triangle.hit, triDenom, triUVT, missTrace, epsQ, dot, cross, vsub, vadd,
    smul, unitV, Vec3.mk.injEq]

/-- C4 amended: `Triangle::hit` reports a hit exactly when the denominator is
strictly greater than `1e-6` (negative-denominator, back-facing hits are
culled) and the computed coordinates satisfy `u > 0`, `v > 0`, `u + v ≤ 1`
and `t` lies strictly inside `(t_min, t_max)`. -/
theorem triangle_hit_characterisation (sq : ℚ → ℚ) (v_0 v_1 v_2 : TriVert) (ray : Ray) :
    ((Triangle.hit sq v_0 v_1 v_2 ray).1.hit = true) ↔
      (epsQ < triDenom v_0.position v_1.position v_2.position ray.dir ∧
        0 < (triUVT v_0.position v_1.position v_2.position ray).x ∧
        0 < (triUVT v_0.position v_1.position v_2.position ray).y ∧
        (triUVT v_0.position v_1.position v_2.position ray).x +
          (triUVT v_0.position v_1.position v_2.position ray).y ≤ 1 ∧
        ray.lo < (triUVT v_0.position v_1.position v_2.position ray).z ∧
        (triUVT v_0.position v_1.position v_2.position ray).z < ray.hi) := by
  simp only [Triangle.hit]
  split_ifs with h1 h2
  · simp only [missTrace]
    constructor
    · intro hh; exact absurd hh (by simp)
    · intro hh; exact absurd h1 (not_le.mpr hh.1)
  · constructor
    · intro _
      exact ⟨not_le.mp h1, h2.2.2.1, h2.2.2.2.1, h2.2.2.2.2, h2.2.1, h2.1⟩
    · intro _; rfl
  · simp only [missTrace]
    constructor
    · intro hh; exact absurd hh (by simp)
    · intro hh
      exact absurd ⟨hh.2.2.2.2.2, hh.2.2.2.2.1, hh.2.1, hh.2.2.1, hh.2.2.2.1⟩ h2

/-- C5 counterexample: on a closed all-triangle mesh with 20 faces (the
icosahedron of spec scenario 7, where all 20 faces are non-boundary), the
code's target is `20 - (20 - 20/4) = 5` remaining faces, not the
`20·(4-1)/4 = 15` of the claim's formula. -/
theorem simplify_target_icosahedron :
    simplifyTarget 20 20 = 5 ∧ 20 * (4 - 1) / 4 = 15 ∧ (5 : ℕ) ≠ 15 := by
  decide

/-- C5 amended: the greedy loop of `simplify` runs while the face count
exceeds `target = faces - (nonboundary - nonboundary / 4)`; for a closed mesh
(every face non-boundary) that target is `⌊faces / 4⌋` — simplification aims
at one quarter of the initial face count, not three quarters. -/
theorem simplify_target_closed_quarter (F : ℕ) : simplifyTarget F F = F / 4 := by
  unfold simplifyTarget simplification_factor
  omega

/-- C6 counterexample: at `out_dir = (4/5, -3/5, 0)` with refraction index 2
the refraction is total-internal (`y'^2 = -39/25 ≤ 0`); `refract` returns
`out_dir` itself — not the reflected direction `(-4/5, -3/5, 0)` — and the
pure-refract BSDF then attenuates by 0, not 1. -/
theorem refract_tir_keeps_direction :
    refractYSq ⟨4 / 5, -3 / 5, 0⟩ 2 ≤ 0 ∧
    (refract (fun _ => 0) ⟨4 / 5, -3 / 5, 0⟩ 2).1 ≠ reflect ⟨4 / 5, -3 / 5, 0⟩ ∧
    (BSDF_Refract.sample (fun _ => 0) 2 ⟨4 / 5, -3 / 5, 0⟩).attenuation ≠ ⟨1, 1, 1⟩ := by
  norm_num [refractYSq, refract, reflect, BSDF_Refract.sample, Vec3.mk.injEq,
    Spectrum.mk.injEq]

/-- C6 amended: on total internal reflection (`y'^2 ≤ 0`) `refract` does set
`was_internal = true` but returns `out_dir` unchanged (not the reflected
direction), and `BSDF_Refract::sample` then returns that unchanged direction
with attenuation 0 (not 1) and pdf 1. -/
theorem refract_tir_behaviour (sq : ℚ → ℚ) (out_dir : Vec3) (ior : ℚ)
    (h : refractYSq out_dir ior ≤ 0) :
    refract sq out_dir ior = (out_dir, true) ∧
      BSDF_Refract.sample sq ior out_dir = ⟨out_dir, ⟨0, 0, 0⟩, 1⟩ := by
  have hr : refract sq out_dir ior = (out_dir, true) := by
    simp only [refract]
    simp only [refractYSq] at h
    rw [if_neg (not_lt.mpr h)]
  refine ⟨hr, ?_⟩
  simp only [BSDF_Refract.sample, hr]
  rfl

/-- C6 witness: the amended behaviour at the concrete total-internal input
`out_dir = (4/5, -3/5, 0)`, index 2. -/
theorem refract_tir_behaviour_witness :
    refract (fun _ => 0) ⟨4 / 5, -3 / 5, 0⟩ 2 = (⟨4 / 5, -3 / 5, 0⟩, true) ∧
      BSDF_Refract.sample (fun _ => 0) 2 ⟨4 / 5, -3 / 5, 0⟩ =
        ⟨⟨4 / 5, -3 / 5, 0⟩, ⟨0, 0, 0⟩, 1⟩ :=
  refract_tir_behaviour (fun _ => 0) ⟨4 / 5, -3 / 5, 0⟩ 2 (by norm_num [refractYSq])

/-- C7 counterexample: with `focal_dist = 2`, identity view transform,
`tan ≡ 1` and centre screen coordinate `(1/2, 1/2)`, the generated direction
is `(0, 0, -1)` — the sensor plane sits at `z = -1` — whereas the claim's
sensor point `((2u-1)w, (2v-1)h, -focal_dist)` predicts direction
`(0, 0, -2)`. -/
theorem generate_ray_focal_dist_sensor_z :
    Camera.generate_ray (fun _ => 1) 3 ⟨⟨1, 0, 0⟩, ⟨0, 1, 0⟩, ⟨0, 0, 1⟩, ⟨0, 0, 0⟩⟩
        90 1 2 (1 / 2, 1 / 2) = (⟨0, 0, 0⟩, ⟨0, 0, -1⟩) ∧
      (⟨0, 0, -1⟩ : Vec3) ≠ ⟨0, 0, -2⟩ := by
  norm_num [Camera.generate_ray, Mat4Aff.apply, dot, vadd, vsub, Vec3.mk.injEq,
    Prod.mk.injEq]

/-- C7 amended: for every focal distance, `Camera::generate_ray` builds the
view-space sensor point `((2u-1)·w, (2v-1)·h, -1)` — half extents
`h = tan(vfov·(π/180)/2)·focal_dist`, `w = h·aspect_ratio` scale with
`focal_dist`, but the plane is fixed at `z = -1` — and returns origin
`iview·0` and direction `iview·sensor − origin`. -/
theorem generate_ray_formula (tanQ : ℚ → ℚ) (piQ : ℚ) (iview : Mat4Aff)
    (vert_fov aspect_ratio focal_dist u v : ℚ) :
    Camera.generate_ray tanQ piQ iview vert_fov aspect_ratio focal_dist (u, v) =
      (Mat4Aff.apply iview ⟨0, 0, 0⟩,
       vsub
         (Mat4Aff.apply iview
           ⟨(2 * u - 1) * (tanQ (vert_fov * (piQ / 180) / 2) * focal_dist * aspect_ratio),
            (2 * v - 1) * (tanQ (vert_fov * (piQ / 180) / 2) * focal_dist), -1⟩)
         (Mat4Aff.apply iview ⟨0, 0, 0⟩)) := by
  simp only [Camera.generate_ray]
  have harg :
      (⟨0 + (u * (tanQ (vert_fov * (piQ / 180) / 2) * 2 * focal_dist * aspect_ratio) -
          tanQ (vert_fov * (piQ / 180) / 2) * 2 * focal_dist * aspect_ratio / 2),
        0 + (v * (tanQ (vert_fov * (piQ / 180) / 2) * 2 * focal_dist) -
          tanQ (vert_fov * (piQ / 180) / 2) * 2 * focal_dist / 2), -1⟩ : Vec3) =
      ⟨(2 * u - 1) * (tanQ (vert_fov * (piQ / 180) / 2) * focal_dist * aspect_ratio),
       (2 * v - 1) * (tanQ (vert_fov * (piQ / 180) / 2) * focal_dist), -1⟩ := by
    simp only [Vec3.mk.injEq]
    refine ⟨by ring, by ring, trivial⟩
  rw [harg]

/-- C8: the singular-quadric fallback of `Edge_Record` computes the
stationary point as `t = -a/(2b)` instead of the minimiser `-b/(2a)` its own
comment derives: with quadric samples `cost(0) = 0`, `cost(1/2) = 0`,
`cost(1) = 1` (quadric `quadricDemo` over the segment `(0,0,0)-(1,0,0)`, so
`a = 2, b = -1, c = 0`), the code picks `t = -2/(2·(-1)) = 1` (clamped),
returning endpoint `(1,0,0)` with cost `1`, while the true clamped minimiser
`t = -b/(2a) = 1/4` has cost `-1/8 < 1`. -/
theorem edge_record_fallback_wrong_minimiser :
    edgeRecordFallback quadricDemo ⟨0, 0, 0⟩ ⟨1, 0, 0⟩ = (⟨1, 0, 0⟩, 1) ∧
    quadCost quadricDemo ⟨1 / 4, 0, 0⟩ = -(1 / 8) ∧
    (-(1 / 8) : ℚ) < 1 := by
  norm_num [edgeRecordFallback, quadCost, dot4, Mat4.mulVec, vec4of, quadricDemo,
    smul, vadd, Vec3.mk.injEq, Prod.mk.injEq]

lemma keys_updateA {α : Type} (l : List (ℕ × α)) (i : ℕ) (f : α → α) :
    (updateA l i f).map Prod.fst = l.map Prod.fst := by
  induction l with
  | nil => rfl
  | cons a tl ih =>
    obtain ⟨k, v⟩ := a
    by_cases hp : k = i <;> simp [updateA, hp, ih]

lemma lookupA_updateA {α : Type} (l : List (ℕ × α)) (i : ℕ) (f : α → α) (j : ℕ) :
    lookupA (updateA l i f) j =
      if j = i then (lookupA l j).map f else lookupA l j := by
  induction l with
  | nil => simp [updateA, lookupA]
  | cons a tl ih =>
    obtain ⟨k, v⟩ := a
    simp only [updateA]
    by_cases h1 : k = i
    · rw [if_pos h1]
      by_cases h2 : k = j
      · have h3 : j = i := h2.symm.trans h1
        simp [lookupA, h2, h3]
      · simp [lookupA, h2, ih]
    · rw [if_neg h1]
      by_cases h2 : k = j
      · have h3 : ¬ j = i := fun hh => h1 (h2.trans hh)
        simp [lookupA, h2, h3]
      · simp [lookupA, h2, ih]

lemma pos_updateA (l : List (ℕ × Vertex)) (i : ℕ) (f : Vertex → Vertex)
    (hf : ∀ v, (f v).pos = v.pos) (j : ℕ) :
    (lookupA (updateA l i f) j).map Vertex.pos = (lookupA l j).map Vertex.pos := by
  rw [lookupA_updateA]
  split_ifs with h
  · cases lookupA l j <;> simp [hf]
  · rfl

/-- C10: whenever `flip_edge` succeeds it returns the very edge handle it was
given, and it neither allocates nor erases any entity: the halfedge, vertex,
edge and face stores keep exactly the same keys in the same order, the
deferred-erase marks are untouched, and every vertex position is unchanged —
only connectivity pointers are rewired. -/
theorem flip_edge_frame (m : Mesh) (e fuel : ℕ) (m' : Mesh) (r : ℕ)
    (h : flip_edge m e fuel = some (m', r)) :
    r = e ∧
    m'.halfedges.map Prod.fst = m.halfedges.map Prod.fst ∧
    m'.vertices.map Prod.fst = m.vertices.map Prod.fst ∧
    m'.edges.map Prod.fst = m.edges.map Prod.fst ∧
    m'.faces.map Prod.fst = m.faces.map Prod.fst ∧
    m'.erasedH = m.erasedH ∧ m'.erasedV = m.erasedV ∧
    m'.erasedE = m.erasedE ∧ m'.erasedF = m.erasedF ∧
    (∀ i, (lookupA m'.vertices i).map Vertex.pos =
      (lookupA m.vertices i).map Vertex.pos) := by
  unfold flip_edge at h
  obtain ⟨p, _, heq⟩ := Option.map_eq_some'.mp h
  have h1 : m' = flipWrites m e p := (congrArg Prod.fst heq).symm
  have h2 : r = e := (congrArg Prod.snd heq).symm
  subst h1
  subst h2
  refine ⟨rfl, ?_, ?_, ?_, ?_, ?_, ?_, ?_, ?_, ?_⟩
  · simp [flipWrites, setNext, setHVertex, setTwin, setHEdge, setHFace,
      setVHalfedge, setEHalfedge, setFHalfedge, keys_updateA]
  · simp [flipWrites, setNext, setHVertex, setTwin, setHEdge, setHFace,
      setVHalfedge, setEHalfedge, setFHalfedge, keys_updateA]
  · simp [flipWrites, setNext, setHVertex, setTwin, setHEdge, setHFace,
      setVHalfedge, setEHalfedge, setFHalfedge, keys_updateA]
  · simp [flipWrites, setNext, setHVertex, setTwin, setHEdge, setHFace,
      setVHalfedge, setEHalfedge, setFHalfedge, keys_updateA]
  · simp [flipWrites, setNext, setHVertex, setTwin, setHEdge, setHFace,
      setVHalfedge, setEHalfedge, setFHalfedge]
  · simp [flipWrites, setNext, setHVertex, setTwin, setHEdge, setHFace,
      setVHalfedge, setEHalfedge, setFHalfedge]
  · simp [flipWrites, setNext, setHVertex, setTwin, setHEdge, setHFace,
      setVHalfedge, setEHalfedge, setFHalfedge]
  · simp [flipWrites, setNext, setHVertex, setTwin, setHEdge, setHFace,
      setVHalfedge, setEHalfedge, setFHalfedge]
  · intro i
    simp only [flipWrites, setNext, setHVertex, setTwin, setHEdge, setHFace,
      setVHalfedge, setEHalfedge, setFHalfedge]
    rw [pos_updateA _ p.v1 (fun v => { halfedge := p.h1, pos := v.pos }) (fun v => rfl),
      pos_updateA _ p.v0 (fun v => { halfedge := p.hl1p1, pos := v.pos }) (fun v => rfl)]

/-- C10 witness: the frame conditions instantiated on the concrete square
mesh, whose diagonal flip succeeds and returns edge 2. -/
theorem flip_edge_frame_witness :
    (2 : ℕ) = 2 ∧
    flippedSquare.halfedges.map Prod.fst = squareMesh.halfedges.map Prod.fst ∧
    flippedSquare.vertices.map Prod.fst = squareMesh.vertices.map Prod.fst ∧
    flippedSquare.edges.map Prod.fst = squareMesh.edges.map Prod.fst ∧
    flippedSquare.faces.map Prod.fst = squareMesh.faces.map Prod.fst ∧
    flippedSquare.erasedH = squareMesh.erasedH ∧
    flippedSquare.erasedV = squareMesh.erasedV ∧
    flippedSquare.erasedE = squareMesh.erasedE ∧
    flippedSquare.erasedF = squareMesh.erasedF ∧
    (∀ i, (lookupA flippedSquare.vertices i).map Vertex.pos =
      (lookupA squareMesh.vertices i).map Vertex.pos) :=
  flip_edge_frame squareMesh 2 20 flippedSquare 2 (by decide)

/-- C2 counterexample: on the dihedron, `edge_collapsable` of edge 1 is
`false` (its halfedges lie in 2-gons), yet `collapse_edge` does not return
the refusal sentinel: it completes and mutates the mesh (already its
halfedge connectivity changes). -/
theorem collapse_edge_ignores_gate :
    edge_collapsable dihedron 1 10 = some false ∧
    (collapse_edge dihedron 1 10).isSome = true ∧
    (collapse_edge dihedron 1 10).map (fun p => p.1.halfedges) ≠
      some dihedron.halfedges := by
  refine ⟨by decide, by decide, by decide⟩

/-- C2 amended: `collapse_edge` never consults `edge_collapsable` and has no
refusal path: whenever it completes it returns the surviving endpoint
`v_1 = e->halfedge()->vertex()` (after mutating the mesh), even for edges the
gate rejects; the degenerate-collapse refusal is enforced by `simplify`,
which tests `edge_collapsable` before calling `collapse_edge`. -/
theorem collapse_edge_returns_v1 (m : Mesh) (e fuel : ℕ)
    (h : (collapse_edge m e fuel).isSome = true) :
    (collapse_edge m e fuel).map Prod.snd = collapseV1 m e := by
  cases he : m.edge e
  case none => simp [collapse_edge, he] at h
  case some ed =>
    cases hh : m.he ed.halfedge
    case none => simp [collapse_edge, he, hh] at h
    case some h1 =>
      cases hr : collapse_edge_rest m fuel ed h1
      case none => simp [collapse_edge, he, hh, hr] at h
      case some mE => simp [collapse_edge, collapseV1, he, hh, hr]

/-- C2 witness: on the dihedron's non-collapsable edge 1 the completed
collapse still returns vertex 1 (= `e->halfedge()->vertex()`). -/
theorem collapse_edge_returns_v1_witness :
    (collapse_edge dihedron 1 10).map Prod.snd = some 1 := by
  have h := collapse_edge_returns_v1 dihedron 1 10 (by decide)
  rw [h]
  decide

/-- C9: `Sphere::hit` returns the smaller quadratic root when it lies
strictly inside `(t_min, t_max)`; otherwise the larger root when that one
does; in particular, for a ray starting inside the sphere with `t_min = 0`
the larger root is positive and is returned (the exit hit).  In each case the
trace carries the hit position, the normal equal to the hit point divided by
the radius, and the tightened `t_max`.  Hypotheses: the ray direction is unit
length, and the square-root oracle is exact at the discriminant and at
`radius^2`. -/
theorem sphere_hit_root_selection (sq : ℚ → ℚ) (radius : ℚ) (ray : Ray)
    (hdir : dot ray.dir ray.dir = 1) (hrad : 0 < radius)
    (hsq : sphereS sq radius ray * sphereS sq radius ray =
      sphereB ray * sphereB ray - sphereC radius ray)
    (hsqpos : 0 ≤ sphereS sq radius ray)
    (hsqrad : sq (radius * radius) = radius) :
    ((ray.lo < sphereTmin sq radius ray ∧ sphereTmin sq radius ray < ray.hi) →
        Sphere.hit sq radius ray = sphereHitAt radius ray (sphereTmin sq radius ray)) ∧
    (¬ (ray.lo < sphereTmin sq radius ray ∧ sphereTmin sq radius ray < ray.hi) →
      ray.lo < sphereTmax sq radius ray → sphereTmax sq radius ray < ray.hi →
        Sphere.hit sq radius ray = sphereHitAt radius ray (sphereTmax sq radius ray)) ∧
    (sphereC radius ray < 0 → ray.lo = 0 → sphereTmax sq radius ray < ray.hi →
      0 < sphereTmax sq radius ray ∧
        Sphere.hit sq radius ray = sphereHitAt radius ray (sphereTmax sq radius ray)) := by
  simp only [sphereS, sphereB, sphereC, sphereTmin, sphereTmax, sphereHitAt] at *
  have hdisc : ¬ (dot ray.point ray.dir * dot ray.point ray.dir -
      (dot ray.point ray.point - radius * radius) < 0) := by
    rw [← hsq]; exact not_lt.mpr (mul_self_nonneg _)
  have hnormAt : ∀ t : ℚ,
      t * t + 2 * dot ray.point ray.dir * t +
        (dot ray.point ray.point - radius * radius) = 0 →
      sq (dot (vadd ray.point (smul t ray.dir)) (vadd ray.point (smul t ray.dir))) =
        radius := by
    intro t ht
    have hexp : dot (vadd ray.point (smul t ray.dir)) (vadd ray.point (smul t ray.dir)) =
        dot ray.point ray.point + 2 * dot ray.point ray.dir * t +
          t * t * dot ray.dir ray.dir := by
      simp only [dot, vadd, smul]; ring
    have hdp : dot (vadd ray.point (smul t ray.dir)) (vadd ray.point (smul t ray.dir)) =
        radius * radius := by
      rw [hexp, hdir]; linarith
    rw [hdp, hsqrad]
  have hroot1 :
      (-dot ray.point ray.dir -
          sq (dot ray.point ray.dir * dot ray.point ray.dir -
            (dot ray.point ray.point - radius * radius))) *
        (-dot ray.point ray.dir -
          sq (dot ray.point ray.dir * dot ray.point ray.dir -
            (dot ray.point ray.point - radius * radius))) +
        2 * dot ray.point ray.dir *
          (-dot ray.point ray.dir -
            sq (dot ray.point ray.dir * dot ray.point ray.dir -
              (dot ray.point ray.point - radius * radius))) +
        (dot ray.point ray.point - radius * radius) = 0 := by
    linear_combination hsq
  have hroot2 :
      (-dot ray.point ray.dir +
          sq (dot ray.point ray.dir * dot ray.point ray.dir -
            (dot ray.point ray.point - radius * radius))) *
        (-dot ray.point ray.dir +
          sq (dot ray.point ray.dir * dot ray.point ray.dir -
            (dot ray.point ray.point - radius * radius))) +
        2 * dot ray.point ray.dir *
          (-dot ray.point ray.dir +
            sq (dot ray.point ray.dir * dot ray.point ray.dir -
              (dot ray.point ray.point - radius * radius))) +
        (dot ray.point ray.point - radius * radius) = 0 := by
    linear_combination hsq
  simp only [Sphere.hit]
  rw [if_neg hdisc]
  rw [if_neg (show ¬ (-dot ray.point ray.dir +
      sq (dot ray.point ray.dir * dot ray.point ray.dir -
        (dot ray.point ray.point - radius * radius)) <
      -dot ray.point ray.dir -
      sq (dot ray.point ray.dir * dot ray.point ray.dir -
        (dot ray.point ray.point - radius * radius))) from by linarith)]
  rw [show (if (-dot ray.point ray.dir -
        sq (dot ray.point ray.dir * dot ray.point ray.dir -
          (dot ray.point ray.point - radius * radius))) =
        (-dot ray.point ray.dir +
        sq (dot ray.point ray.dir * dot ray.point ray.dir -
          (dot ray.point ray.point - radius * radius)))
      then (-dot ray.point ray.dir -
        sq (dot ray.point ray.dir * dot ray.point ray.dir -
          (dot ray.point ray.point - radius * radius)))
      else (-dot ray.point ray.dir +
        sq (dot ray.point ray.dir * dot ray.point ray.dir -
          (dot ray.point ray.point - radius * radius)))) =
      (-dot ray.point ray.dir +
        sq (dot ray.point ray.dir * dot ray.point ray.dir -
          (dot ray.point ray.point - radius * radius))) from by
    split_ifs with hteq
    · exact hteq
    · rfl]
  have hunit1 := hnormAt _ hroot1
  have hunit2 := hnormAt _ hroot2
  refine ⟨?_, ?_, ?_⟩
  · rintro ⟨h1, h2⟩
    rw [if_pos ⟨h2, h1⟩]
    simp only [Prod.mk.injEq, Trace.mk.injEq, unitV, hunit1]
  · intro hnot h1 h2
    rw [if_neg (fun hh => hnot ⟨hh.2, hh.1⟩), if_pos ⟨h2, h1⟩]
    simp only [Prod.mk.injEq, Trace.mk.injEq, unitV, hunit2]
  · intro hc hlo hhi
    have hs2 :
        sq (dot ray.point ray.dir * dot ray.point ray.dir -
          (dot ray.point ray.point - radius * radius)) *
        sq (dot ray.point ray.dir * dot ray.point ray.dir -
          (dot ray.point ray.point - radius * radius)) >
        dot ray.point ray.dir * dot ray.point ray.dir := by
      rw [hsq]; linarith
    have htpos : 0 < -dot ray.point ray.dir +
        sq (dot ray.point ray.dir * dot ray.point ray.dir -
          (dot ray.point ray.point - radius * radius)) := by
      nlinarith [hsqpos, hs2]
    have htminle : -dot ray.point ray.dir -
        sq (dot ray.point ray.dir * dot ray.point ray.dir -
          (dot ray.point ray.point - radius * radius)) ≤ 0 := by
      nlinarith [hsqpos, hs2]
    refine ⟨htpos, ?_⟩
    rw [if_neg (show ¬ _ from fun hh => by rw [hlo] at hh; linarith [hh.2]),
      if_pos ⟨hhi, by rw [hlo]; exact htpos⟩]
    simp only [Prod.mk.injEq, Trace.mk.injEq, unitV, hunit2]

/-- C9 witness: the unit sphere hit from its centre along `+x` with bounds
`(0, 100)` — spec scenario 5: the returned hit is the exit at distance 1 with
normal `(1,0,0)` and `t_max` tightened to 1. -/
theorem sphere_hit_root_selection_witness :
    Sphere.hit (fun _ => 1) 1 ⟨⟨0, 0, 0⟩, ⟨1, 0, 0⟩, 0, 100⟩ =
      (⟨true, ⟨0, 0, 0⟩, 1, ⟨1, 0, 0⟩, ⟨1, 0, 0⟩⟩, 1) := by
  have h := sphere_hit_root_selection (fun _ => 1) 1 ⟨⟨0, 0, 0⟩, ⟨1, 0, 0⟩, 0, 100⟩
    (by norm_num [dot]) (by norm_num)
    (by norm_num [sphereS, sphereB, sphereC, dot])
    (by norm_num [sphereS, sphereB, sphereC, dot]) (by norm_num)
  have h3 := h.2.2 (by norm_num [sphereC, dot]) rfl
    (by norm_num [sphereTmax, sphereS, sphereB, sphereC, dot])
  rw [h3.2]
  norm_num [sphereHitAt, sphereTmax, sphereS, sphereB, sphereC, dot, vadd, smul,
    Prod.mk.injEq, Trace.mk.injEq, Vec3.mk.injEq]

set_option maxRecDepth 100000 in
set_option maxHeartbeats 8000000 in
/-- Helper for the C1 counterexample: the SAH sweep at the root picks axis 0,
split index 1, with the left box covering bin 0 only. -/
theorem sah_root_eval :
    sahBest ⟨⟨1/2, 0, 0⟩, ⟨31/2, 5, 0⟩⟩ [primA, primP, primB] =
      ⟨0, 0, 1, ⟨⟨1/2, 5, 0⟩, ⟨1/2, 5, 0⟩⟩, ⟨⟨3/2, 0, 0⟩, ⟨31/2, 0, 0⟩⟩⟩ := by
  have hr0 : List.range 0 = [] := rfl
  have hr1 : List.range 1 = [0] := rfl
  have hr2 : List.range 2 = [0, 1] := rfl
  have hr3 : List.range 3 = [0, 1, 2] := rfl
  have hr4 : List.range 4 = [0, 1, 2, 3] := rfl
  have hr5 : List.range 5 = [0, 1, 2, 3, 4] := rfl
  have hr6 : List.range 6 = [0, 1, 2, 3, 4, 5] := rfl
  have hr7 : List.range 7 = [0, 1, 2, 3, 4, 5, 6] := rfl
  have hr8 : List.range 8 = [0, 1, 2, 3, 4, 5, 6, 7] := rfl
  have hr9 : List.range 9 = [0, 1, 2, 3, 4, 5, 6, 7, 8] := rfl
  have hr10 : List.range 10 = [0, 1, 2, 3, 4, 5, 6, 7, 8, 9] := rfl
  have hr11 : List.range 11 = [0, 1, 2, 3, 4, 5, 6, 7, 8, 9, 10] := rfl
  have hr12 : List.range 12 = [0, 1, 2, 3, 4, 5, 6, 7, 8, 9, 10, 11] := rfl
  have hr13 : List.range 13 = [0, 1, 2, 3, 4, 5, 6, 7, 8, 9, 10, 11, 12] := rfl
  have hr14 : List.range 14 = [0, 1, 2, 3, 4, 5, 6, 7, 8, 9, 10, 11, 12, 13] := rfl
  have hr15 : List.range 15 = [0, 1, 2, 3, 4, 5, 6, 7, 8, 9, 10, 11, 12, 13, 14] := rfl
  have hr16 : List.range 16 = [0, 1, 2, 3, 4, 5, 6, 7, 8, 9, 10, 11, 12, 13, 14, 15] := rfl
  have hA0 : binOf 0 (1/2) (31/2) (⟨⟨1/2, 5, 0⟩, ⟨1/2, 5, 0⟩⟩ : BBox) = 0 := by
    norm_num [binOf, comp]
  have hP0 : binOf 0 (1/2) (31/2) (⟨⟨3/2, 0, 0⟩, ⟨3/2, 0, 0⟩⟩ : BBox) = 1 := by
    norm_num [binOf, comp]
  have hB0 : binOf 0 (1/2) (31/2) (⟨⟨31/2, 0, 0⟩, ⟨31/2, 0, 0⟩⟩ : BBox) = 15 := by
    norm_num [binOf, comp]
  have hA1 : binOf 1 0 5 (⟨⟨1/2, 5, 0⟩, ⟨1/2, 5, 0⟩⟩ : BBox) = 15 := by
    norm_num [binOf, comp]
  have hP1 : binOf 1 0 5 (⟨⟨3/2, 0, 0⟩, ⟨3/2, 0, 0⟩⟩ : BBox) = 0 := by
    norm_num [binOf, comp]
  have hB1 : binOf 1 0 5 (⟨⟨31/2, 0, 0⟩, ⟨31/2, 0, 0⟩⟩ : BBox) = 0 := by
    norm_num [binOf, comp]
  have hA2 : binOf 2 0 0 (⟨⟨1/2, 5, 0⟩, ⟨1/2, 5, 0⟩⟩ : BBox) = 0 := by
    norm_num [binOf, comp]
  have hP2 : binOf 2 0 0 (⟨⟨3/2, 0, 0⟩, ⟨3/2, 0, 0⟩⟩ : BBox) = 0 := by
    norm_num [binOf, comp]
  have hB2 : binOf 2 0 0 (⟨⟨31/2, 0, 0⟩, ⟨31/2, 0, 0⟩⟩ : BBox) = 0 := by
    norm_num [binOf, comp]
  norm_num [sahBest, binBox, binCount, leftBox, leftSum, rightBox, rightSum, comp,
    BBox.enclose, BBox.empty, BBox.surface_area, primA, primP, primB,
    vmin, vmax, vsub, FLT_MAX_Q, hr0, hr1, hr2, hr3, hr4, hr5, hr6, hr7, hr8, hr9, hr10, hr11, hr12, hr13, hr14, hr15, hr16,
    hA0, hP0, hB0, hA1, hP1, hB1, hA2, hP2, hB2, max_def, min_def]

set_option maxRecDepth 100000 in
set_option maxHeartbeats 8000000 in
/-- Helper for the C1 counterexample: the SAH sweep at the left child (a
single-point box, all extents zero) degenerates to split 1 on axis 0. -/
theorem sah_left_eval :
    sahBest ⟨⟨1/2, 5, 0⟩, ⟨1/2, 5, 0⟩⟩ [primA, primP] =
      ⟨20, 0, 1, ⟨⟨1/2, 0, 0⟩, ⟨3/2, 5, 0⟩⟩, BBox.empty⟩ := by
  have hr0 : List.range 0 = [] := rfl
  have hr1 : List.range 1 = [0] := rfl
  have hr2 : List.range 2 = [0, 1] := rfl
  have hr3 : List.range 3 = [0, 1, 2] := rfl
  have hr4 : List.range 4 = [0, 1, 2, 3] := rfl
  have hr5 : List.range 5 = [0, 1, 2, 3, 4] := rfl
  have hr6 : List.range 6 = [0, 1, 2, 3, 4, 5] := rfl
  have hr7 : List.range 7 = [0, 1, 2, 3, 4, 5, 6] := rfl
  have hr8 : List.range 8 = [0, 1, 2, 3, 4, 5, 6, 7] := rfl
  have hr9 : List.range 9 = [0, 1, 2, 3, 4, 5, 6, 7, 8] := rfl
  have hr10 : List.range 10 = [0, 1, 2, 3, 4, 5, 6, 7, 8, 9] := rfl
  have hr11 : List.range 11 = [0, 1, 2, 3, 4, 5, 6, 7, 8, 9, 10] := rfl
  have hr12 : List.range 12 = [0, 1, 2, 3, 4, 5, 6, 7, 8, 9, 10, 11] := rfl
  have hr13 : List.range 13 = [0, 1, 2, 3, 4, 5, 6, 7, 8, 9, 10, 11, 12] := rfl
  have hr14 : List.range 14 = [0, 1, 2, 3, 4, 5, 6, 7, 8, 9, 10, 11, 12, 13] := rfl
  have hr15 : List.range 15 = [0, 1, 2, 3, 4, 5, 6, 7, 8, 9, 10, 11, 12, 13, 14] := rfl
  have hr16 : List.range 16 = [0, 1, 2, 3, 4, 5, 6, 7, 8, 9, 10, 11, 12, 13, 14, 15] := rfl
  have hA0 : binOf 0 (1/2) (1/2) (⟨⟨1/2, 5, 0⟩, ⟨1/2, 5, 0⟩⟩ : BBox) = 0 := by
    norm_num [binOf, comp]
  have hP0 : binOf 0 (1/2) (1/2) (⟨⟨3/2, 0, 0⟩, ⟨3/2, 0, 0⟩⟩ : BBox) = 0 := by
    norm_num [binOf, comp]
  have hA1 : binOf 1 5 5 (⟨⟨1/2, 5, 0⟩, ⟨1/2, 5, 0⟩⟩ : BBox) = 0 := by
    norm_num [binOf, comp]
  have hP1 : binOf 1 5 5 (⟨⟨3/2, 0, 0⟩, ⟨3/2, 0, 0⟩⟩ : BBox) = 0 := by
    norm_num [binOf, comp]
  have hA2 : binOf 2 0 0 (⟨⟨1/2, 5, 0⟩, ⟨1/2, 5, 0⟩⟩ : BBox) = 0 := by
    norm_num [binOf, comp]
  have hP2 : binOf 2 0 0 (⟨⟨3/2, 0, 0⟩, ⟨3/2, 0, 0⟩⟩ : BBox) = 0 := by
    norm_num [binOf, comp]
  norm_num [sahBest, binBox, binCount, leftBox, leftSum, rightBox, rightSum, comp,
    BBox.enclose, BBox.empty, BBox.surface_area, primA, primP,
    vmin, vmax, vsub, FLT_MAX_Q, hr0, hr1, hr2, hr3, hr4, hr5, hr6, hr7, hr8, hr9, hr10, hr11, hr12, hr13, hr14, hr15, hr16,
    hA0, hP0, hA1, hP1, hA2, hP2, max_def, min_def]

set_option maxRecDepth 100000 in
set_option maxHeartbeats 4000000 in
/-- Helper for the C1 counterexample: the tree built from the three
primitives: the left leaf holds `[primA, primP]` under the bin-0 box that
excludes `primP`. -/
theorem bvh_build_eval :
    BVH.build [primA, primP, primB] 1 =
      some (.node ⟨⟨1/2, 0, 0⟩, ⟨31/2, 5, 0⟩⟩
        (.leaf ⟨⟨1/2, 5, 0⟩, ⟨1/2, 5, 0⟩⟩ [primA, primP])
        (.leaf ⟨⟨3/2, 0, 0⟩, ⟨31/2, 0, 0⟩⟩ [primB])) := by
  have hbb : [primA, primP, primB].foldl (fun acc p => acc.enclose p.box) BBox.empty =
      ⟨⟨1/2, 0, 0⟩, ⟨31/2, 5, 0⟩⟩ := by
    norm_num [BBox.enclose, BBox.empty, vmin, vmax, FLT_MAX_Q, primA, primP, primB,
      max_def, min_def]
  have hgA : goesLeft ⟨⟨1/2, 0, 0⟩, ⟨31/2, 5, 0⟩⟩
      ⟨0, 0, 1, ⟨⟨1/2, 5, 0⟩, ⟨1/2, 5, 0⟩⟩, ⟨⟨3/2, 0, 0⟩, ⟨31/2, 0, 0⟩⟩⟩ primA = true := by
    norm_num [goesLeft, comp, binOf, primA]
  have hgP : goesLeft ⟨⟨1/2, 0, 0⟩, ⟨31/2, 5, 0⟩⟩
      ⟨0, 0, 1, ⟨⟨1/2, 5, 0⟩, ⟨1/2, 5, 0⟩⟩, ⟨⟨3/2, 0, 0⟩, ⟨31/2, 0, 0⟩⟩⟩ primP = true := by
    norm_num [goesLeft, comp, binOf, primP]
  have hgB : goesLeft ⟨⟨1/2, 0, 0⟩, ⟨31/2, 5, 0⟩⟩
      ⟨0, 0, 1, ⟨⟨1/2, 5, 0⟩, ⟨1/2, 5, 0⟩⟩, ⟨⟨3/2, 0, 0⟩, ⟨31/2, 0, 0⟩⟩⟩ primB = false := by
    norm_num [goesLeft, comp, binOf, primB]
  have hgAl : goesLeft ⟨⟨1/2, 5, 0⟩, ⟨1/2, 5, 0⟩⟩
      ⟨20, 0, 1, ⟨⟨1/2, 0, 0⟩, ⟨3/2, 5, 0⟩⟩, BBox.empty⟩ primA = true := by
    norm_num [goesLeft, comp, binOf, primA]
  have hgPl : goesLeft ⟨⟨1/2, 5, 0⟩, ⟨1/2, 5, 0⟩⟩
      ⟨20, 0, 1, ⟨⟨1/2, 0, 0⟩, ⟨3/2, 5, 0⟩⟩, BBox.empty⟩ primP = true := by
    norm_num [goesLeft, comp, binOf, primP]
  rw [BVH.build]
  norm_num [hbb]
  rw [build_subtree]
  norm_num [sah_root_eval, hgA, hgP, hgB]
  rw [build_subtree, build_subtree]
  norm_num [sah_left_eval, hgAl, hgPl]

set_option maxRecDepth 10000 in
/-- Helper for the C1 counterexample: traversing the built tree, the ray
misses the left leaf box and the right leaf holds no candidate, so the
result is a miss. -/
theorem bvh_hit_eval :
    BVH.hit (some (.node ⟨⟨1/2, 0, 0⟩, ⟨31/2, 5, 0⟩⟩
        (.leaf ⟨⟨1/2, 5, 0⟩, ⟨1/2, 5, 0⟩⟩ [primA, primP])
        (.leaf ⟨⟨3/2, 0, 0⟩, ⟨31/2, 0, 0⟩⟩ [primB]))) bvhRay =
      ⟨false, ⟨10, 0, 0⟩, 0, ⟨0, 0, 0⟩, ⟨0, 0, 0⟩⟩ := by
  norm_num [BVH.hit, BVHTree.box, BBox.hit, slab, hit_subtree, hitPrims, Prim.hit,
    bestCand, Trace.min, defaultTrace, bvhRay, primA, primP, primB, max_def, min_def]

/-- Helper for the C1 counterexample: the linear scan finds the hit on
`primP` at `t = 17/2`. -/
theorem linScan_eval :
    linearScan [primA, primP, primB] bvhRay =
      ⟨true, ⟨10, 0, 0⟩, 17/2, ⟨3/2, 0, 0⟩, ⟨1, 0, 0⟩⟩ := by
  norm_num [linearScan, hitPrims, Prim.hit, bestCand, Trace.min, defaultTrace,
    primA, primP, primB, bvhRay]

/-- C1: the refinement claim is false: a concrete counterexample.  On the
three point-like primitives `primA (1/2,5,0)`, `primP (3/2,0,0)`,
`primB (31/2,0,0)` with `max_leaf_size = 1`, `BVH::build` picks the x-axis
split `best_split = 1` at the root, yet the partition predicate
`best_bin_cnt[i] <= best_split` (src/student/bvh.inl:137) sends bin 1 —
and with it `primP` — into the *left* child, whose box `best_left` was
accumulated only over bins `0..best_split-1` (left_bbox at bvh.inl:103-108),
contradicting the comment `// [0, best_split] + [best_split+1, N_BINS-1]`
at bvh.inl:91.  The left leaf therefore stores `[primA, primP]` under the
box `{(1/2,5,0)}`, which does not contain `primP`; the ray from `(10,0,0)`
along `-x` misses that box, the traversal prunes the leaf, and `BVH::hit`
returns a miss while the linear scan hits `primP` at `t = 17/2`. -/
theorem bvh_hit_misses_left_bin_boundary :
    BVH.build [primA, primP, primB] 1 =
      some (.node ⟨⟨1/2, 0, 0⟩, ⟨31/2, 5, 0⟩⟩
        (.leaf ⟨⟨1/2, 5, 0⟩, ⟨1/2, 5, 0⟩⟩ [primA, primP])
        (.leaf ⟨⟨3/2, 0, 0⟩, ⟨31/2, 0, 0⟩⟩ [primB])) ∧
    primP.box.min.y < (5 : ℚ) ∧
    BVH.hit (BVH.build [primA, primP, primB] 1) bvhRay =
      ⟨false, ⟨10, 0, 0⟩, 0, ⟨0, 0, 0⟩, ⟨0, 0, 0⟩⟩ ∧
    linearScan [primA, primP, primB] bvhRay =
      ⟨true, ⟨10, 0, 0⟩, 17/2, ⟨3/2, 0, 0⟩, ⟨1, 0, 0⟩⟩ ∧
    BVH.hit (BVH.build [primA, primP, primB] 1) bvhRay ≠
      linearScan [primA, primP, primB] bvhRay := by
  refine ⟨bvh_build_eval, by norm_num [primP], ?_, linScan_eval, ?_⟩
  · rw [bvh_build_eval]; exact bvh_hit_eval
  · rw [bvh_build_eval, bvh_hit_eval, linScan_eval]
    intro h
    exact Bool.noConfusion (congrArg Trace.hit h)


end Cardinal3D
